import Mathlib

/-!
Verification of the `dueam` mail client's synchronization engine
(`src-tauri/src/email_backend/sync/engine.rs` and
`src-tauri/src/email_backend/sync/worker.rs`) against its specification.

The Rust code is shallowly embedded: strings are `List Char` / `String`,
SQLite tables are lists of row structures, the IMAP server and the
fallible per-row SQL writes are oracles passed in as functions.  Machine
integers (`i64`, `u32`) are `Int` / `Nat`; the one place the code casts
`i64` to `u32` is modelled with an explicit `% 2^32`.
-/

/-! ### Character helpers

`normalize_subject` (engine.rs:38-88) starts from
`subject.trim().to_lowercase()`.  We model `str::to_lowercase` by its
character-to-character action on ASCII (`'A'..='Z'` map to `'a'..='z'`),
and `str::trim` by stripping the ASCII whitespace characters
`' '`, `'\t'`, `'\n'`, `'\r'` from both ends. -/

/-- One character of Rust's `to_lowercase`, restricted to ASCII. -/
def lowerChar (c : Char) : Char :=
  if 65 ≤ c.toNat ∧ c.toNat ≤ 90 then Char.ofNat (c.toNat + 32) else c

/-- Whitespace predicate used by `str::trim`, restricted to ASCII. -/
def wsChar (c : Char) : Bool := decide (c = ' ' ∨ c = '\t' ∨ c = '\n' ∨ c = '\r')

def lowerList (l : List Char) : List Char := l.map lowerChar

def trimL (l : List Char) : List Char := l.dropWhile wsChar

def trimR (l : List Char) : List Char := (l.reverse.dropWhile wsChar).reverse

/-- `str::trim`: drop whitespace from both ends. -/
def trimList (l : List Char) : List Char := trimR (trimL l)

theorem toNat_ofNat_valid (n : Nat) (h : Nat.isValidChar n) : (Char.ofNat n).toNat = n := by
  simp [Char.ofNat, h, Char.toNat, Char.ofNatAux, UInt32.toNat, BitVec.toNat_ofNatLt]

theorem lowerChar_toNat (c : Char) :
    (lowerChar c).toNat = if 65 ≤ c.toNat ∧ c.toNat ≤ 90 then c.toNat + 32 else c.toNat := by
  unfold lowerChar
  split
  · next hc => exact toNat_ofNat_valid _ (Or.inl (by omega))
  · rfl

theorem char_eq_of_toNat_eq {a b : Char} (h : a.toNat = b.toNat) : a = b :=
  Char.eq_of_val_eq (UInt32.ext h)

theorem lowerChar_idem (c : Char) : lowerChar (lowerChar c) = lowerChar c := by
  apply char_eq_of_toNat_eq
  rw [lowerChar_toNat (lowerChar c), lowerChar_toNat c]
  by_cases h : 65 ≤ c.toNat ∧ c.toNat ≤ 90
  · rw [if_pos h, if_neg (by omega)]
  · rw [if_neg h, if_neg h]

theorem wsChar_lowerChar (c : Char) : wsChar (lowerChar c) = wsChar c := by
  unfold wsChar
  rw [decide_eq_decide]
  have h1 : ((' ' : Char)).toNat = 32 := by decide
  have h2 : (('\t' : Char)).toNat = 9 := by decide
  have h3 : (('\n' : Char)).toNat = 10 := by decide
  have h4 : (('\r' : Char)).toNat = 13 := by decide
  have hiff : ∀ a b : Char, a = b ↔ a.toNat = b.toNat :=
    fun a b => ⟨fun h => h ▸ rfl, char_eq_of_toNat_eq⟩
  simp only [hiff, lowerChar_toNat, h1, h2, h3, h4]
  by_cases h : 65 ≤ c.toNat ∧ c.toNat ≤ 90
  · rw [if_pos h]
    constructor <;> intro hx <;> omega
  · rw [if_neg h]

/-! ### Trim / lower interaction lemmas -/

theorem dropWhile_idem (p : Char → Bool) (l : List Char) :
    List.dropWhile p (List.dropWhile p l) = List.dropWhile p l := by
  induction l with
  | nil => rfl
  | cons a l ih =>
    by_cases h : p a
    · simp [List.dropWhile_cons, h, ih]
    · simp [List.dropWhile_cons, h]

theorem trimL_idem (l : List Char) : trimL (trimL l) = trimL l :=
  dropWhile_idem wsChar l

theorem trimR_idem (l : List Char) : trimR (trimR l) = trimR l := by
  unfold trimR
  rw [List.reverse_reverse, dropWhile_idem]

theorem trimR_pfx (l : List Char) : trimR l <+: l := by
  unfold trimR
  have h : List.dropWhile wsChar l.reverse <:+ l.reverse := List.dropWhile_suffix wsChar
  have := List.reverse_prefix.mpr h
  simpa using this

theorem trimL_fixed_of_prefix {l y : List Char} (hl : trimL l = l) (hy : y <+: l) :
    trimL y = y := by
  cases y with
  | nil => rfl
  | cons a t =>
    cases l with
    | nil => simp at hy
    | cons b t' =>
      obtain ⟨rest, hrest⟩ := hy
      have hab : a = b := by
        have := congrArg (fun x => x.head?) hrest
        simpa using this
      subst hab
      unfold trimL at hl ⊢
      by_cases h : wsChar a
      · exfalso
        rw [List.dropWhile_cons, if_pos h] at hl
        have := congrArg List.length hl
        simp at this
        have hle : (List.dropWhile wsChar t').length ≤ t'.length :=
          (List.dropWhile_suffix wsChar).length_le
        omega
      · rw [List.dropWhile_cons, if_neg h]

theorem trimList_idem (l : List Char) : trimList (trimList l) = trimList l := by
  unfold trimList
  have hx : trimL (trimL l) = trimL l := trimL_idem l
  have hy : trimL (trimR (trimL l)) = trimR (trimL l) :=
    trimL_fixed_of_prefix hx (trimR_pfx (trimL l))
  rw [hy, trimR_idem]

theorem dropWhile_lower (l : List Char) :
    List.dropWhile wsChar (lowerList l) = lowerList (List.dropWhile wsChar l) := by
  unfold lowerList
  have hfun : (wsChar ∘ lowerChar) = wsChar := funext wsChar_lowerChar
  rw [List.dropWhile_map, hfun]

theorem reverse_lower (l : List Char) : (lowerList l).reverse = lowerList l.reverse := by
  unfold lowerList
  exact (List.map_reverse lowerChar l).symm

theorem trimR_lower (l : List Char) : trimR (lowerList l) = lowerList (trimR l) := by
  unfold trimR
  rw [reverse_lower, dropWhile_lower, reverse_lower]

theorem trimL_lower (l : List Char) : trimL (lowerList l) = lowerList (trimL l) := by
  unfold trimL
  exact dropWhile_lower l

theorem trimList_lower (l : List Char) : trimList (lowerList l) = lowerList (trimList l) := by
  unfold trimList
  rw [trimL_lower, trimR_lower]

theorem drop_lower (l : List Char) (k : Nat) :
    (lowerList l).drop k = lowerList (l.drop k) := by
  unfold lowerList
  exact (List.map_drop lowerChar l k).symm

theorem lower_lower (l : List Char) : lowerList (lowerList l) = lowerList l := by
  unfold lowerList
  rw [List.map_map]
  congr 1
  funext c
  exact lowerChar_idem c

/-! ### `normalize_subject` (engine.rs:38-88)

The strip loop removes, per iteration, one of the literal prefixes
(`re:`, `fwd:`, `fw:`, the notification prefixes) or a short bracketed
prefix, re-trimming after each removal, and stops when nothing matches
(including the bracket sub-cases that `break`). -/

/-- One iteration of the strip loop: `some t` means the iteration replaced
`s` by `t` and continues; `none` models every `break`. -/
def stripPfx (s : List Char) : Option (List Char) :=
  if "re:".data.isPrefixOf s then some (trimList (s.drop 3))
  else if "fwd:".data.isPrefixOf s then some (trimList (s.drop 4))
  else if "fw:".data.isPrefixOf s then some (trimList (s.drop 3))
  else if "status changed:".data.isPrefixOf s then some (trimList (s.drop 15))
  else if "new comment:".data.isPrefixOf s then some (trimList (s.drop 12))
  else if "new task:".data.isPrefixOf s then some (trimList (s.drop 9))
  else if "task deleted:".data.isPrefixOf s then some (trimList (s.drop 13))
  else if "overdue:".data.isPrefixOf s then some (trimList (s.drop 8))
  else if "reminder:".data.isPrefixOf s then some (trimList (s.drop 9))
  else if "[".data.isPrefixOf s then
    match s.findIdx? (fun c => c == ']') with
    | some i =>
      if ((s.drop 1).take (i - 1)).length < 20
          ∨ (s.drop 1).take (i - 1) = "overdue".data
          ∨ (s.drop 1).take (i - 1) = "clickup".data then
        some (trimList (s.drop (i + 1)))
      else none
    | none => none
  else none

theorem prefix_ne_nil {p s : List Char} (hp : p.isPrefixOf s = true) (hne : p ≠ []) :
    s ≠ [] := by
  intro hs
  subst hs
  cases p with
  | nil => exact hne rfl
  | cons a t => simp [List.isPrefixOf] at hp

/-- Every successful strip produces `trimList (s.drop k)` for some `k ≥ 1`,
from a non-empty `s`. -/
theorem stripPfx_spec {s t : List Char} (h : stripPfx s = some t) :
    ∃ k, 1 ≤ k ∧ t = trimList (s.drop k) ∧ s ≠ [] := by
  unfold stripPfx at h
  by_cases h1 : "re:".data.isPrefixOf s = true
  · rw [if_pos h1] at h
    exact ⟨3, by omega, (Option.some.inj h).symm, prefix_ne_nil h1 (by decide)⟩
  rw [if_neg h1] at h
  by_cases h2 : "fwd:".data.isPrefixOf s = true
  · rw [if_pos h2] at h
    exact ⟨4, by omega, (Option.some.inj h).symm, prefix_ne_nil h2 (by decide)⟩
  rw [if_neg h2] at h
  by_cases h3 : "fw:".data.isPrefixOf s = true
  · rw [if_pos h3] at h
    exact ⟨3, by omega, (Option.some.inj h).symm, prefix_ne_nil h3 (by decide)⟩
  rw [if_neg h3] at h
  by_cases h4 : "status changed:".data.isPrefixOf s = true
  · rw [if_pos h4] at h
    exact ⟨15, by omega, (Option.some.inj h).symm, prefix_ne_nil h4 (by decide)⟩
  rw [if_neg h4] at h
  by_cases h5 : "new comment:".data.isPrefixOf s = true
  · rw [if_pos h5] at h
    exact ⟨12, by omega, (Option.some.inj h).symm, prefix_ne_nil h5 (by decide)⟩
  rw [if_neg h5] at h
  by_cases h6 : "new task:".data.isPrefixOf s = true
  · rw [if_pos h6] at h
    exact ⟨9, by omega, (Option.some.inj h).symm, prefix_ne_nil h6 (by decide)⟩
  rw [if_neg h6] at h
  by_cases h7 : "task deleted:".data.isPrefixOf s = true
  · rw [if_pos h7] at h
    exact ⟨13, by omega, (Option.some.inj h).symm, prefix_ne_nil h7 (by decide)⟩
  rw [if_neg h7] at h
  by_cases h8 : "overdue:".data.isPrefixOf s = true
  · rw [if_pos h8] at h
    exact ⟨8, by omega, (Option.some.inj h).symm, prefix_ne_nil h8 (by decide)⟩
  rw [if_neg h8] at h
  by_cases h9 : "reminder:".data.isPrefixOf s = true
  · rw [if_pos h9] at h
    exact ⟨9, by omega, (Option.some.inj h).symm, prefix_ne_nil h9 (by decide)⟩
  rw [if_neg h9] at h
  by_cases h10 : "[".data.isPrefixOf s = true
  · rw [if_pos h10] at h
    cases hfind : s.findIdx? (fun c => c == ']') with
    | none => rw [hfind] at h; exact Option.noConfusion h
    | some i =>
      rw [hfind] at h
      dsimp only at h
      by_cases h11 : ((s.drop 1).take (i - 1)).length < 20
          ∨ (s.drop 1).take (i - 1) = "overdue".data
          ∨ (s.drop 1).take (i - 1) = "clickup".data
      · rw [if_pos h11] at h
        exact ⟨i + 1, by omega, (Option.some.inj h).symm, prefix_ne_nil h10 (by decide)⟩
      · rw [if_neg h11] at h
        exact Option.noConfusion h
  · rw [if_neg h10] at h
    exact Option.noConfusion h

theorem trimList_length_le (l : List Char) : (trimList l).length ≤ l.length := by
  have h1 : (trimList l).length ≤ (trimL l).length :=
    (trimR_pfx (trimL l)).length_le
  have h2 : (trimL l).length ≤ l.length := (List.dropWhile_suffix wsChar).length_le
  omega

theorem stripPfx_shrink {s t : List Char} (h : stripPfx s = some t) :
    t.length < s.length := by
  obtain ⟨k, hk, rfl, hs⟩ := stripPfx_spec h
  have h1 := trimList_length_le (s.drop k)
  have h2 : (s.drop k).length = s.length - k := List.length_drop k s
  have h3 : s.length ≠ 0 := fun h0 => hs (List.eq_nil_of_length_eq_zero h0)
  omega

/-- The strip loop of `normalize_subject`, including the (unreachable)
`s == prev` break of the source. -/
def stripLoop (s : List Char) : List Char :=
  match h : stripPfx s with
  | none => s
  | some t => if t = s then t else stripLoop t
termination_by s.length
decreasing_by exact stripPfx_shrink h

/-- `normalize_subject` (engine.rs:38-88): trim, lowercase, then strip
prefixes to a fixed point. -/
def normalize_subject (s : String) : String :=
  String.mk (stripLoop (lowerList (trimList s.data)))

theorem stripLoop_none {s : List Char} (h : stripPfx s = none) : stripLoop s = s := by
  unfold stripLoop
  split
  · rfl
  · next t ht => rw [h] at ht; cases ht

theorem stripLoop_step {s t : List Char} (h : stripPfx s = some t) :
    stripLoop s = stripLoop t := by
  have hne : t ≠ s := by
    have := stripPfx_shrink h
    intro e; rw [e] at this; omega
  conv_lhs => unfold stripLoop
  split
  · next hnone => rw [h] at hnone; cases hnone
  · next t' ht' =>
    rw [h] at ht'
    cases ht'
    rw [if_neg hne]

theorem stripLoop_strip_aux :
    ∀ (n : Nat) (s : List Char), s.length ≤ n → stripPfx (stripLoop s) = none := by
  intro n
  induction n with
  | zero =>
    intro s hs
    cases hst : stripPfx s with
    | none => rw [stripLoop_none hst]; exact hst
    | some t => exact absurd (stripPfx_shrink hst) (by omega)
  | succ n ih =>
    intro s hs
    cases hst : stripPfx s with
    | none => rw [stripLoop_none hst]; exact hst
    | some t =>
      rw [stripLoop_step hst]
      exact ih t (by have := stripPfx_shrink hst; omega)

/-- The strip loop stops at a state no strip rule applies to. -/
theorem stripLoop_strip (s : List Char) : stripPfx (stripLoop s) = none :=
  stripLoop_strip_aux s.length s le_rfl

theorem stripPfx_trimmed {s t : List Char} (h : stripPfx s = some t) : trimList t = t := by
  obtain ⟨k, _, rfl, _⟩ := stripPfx_spec h
  exact trimList_idem _

theorem stripPfx_lower {s t : List Char} (h : stripPfx s = some t) (hs : lowerList s = s) :
    lowerList t = t := by
  obtain ⟨k, _, rfl, _⟩ := stripPfx_spec h
  rw [← trimList_lower, ← drop_lower, hs]

theorem stripLoop_trimmed_aux :
    ∀ (n : Nat) (s : List Char), s.length ≤ n → trimList s = s →
      trimList (stripLoop s) = stripLoop s := by
  intro n
  induction n with
  | zero =>
    intro s hs hts
    cases hst : stripPfx s with
    | none => rw [stripLoop_none hst]; exact hts
    | some t => exact absurd (stripPfx_shrink hst) (by omega)
  | succ n ih =>
    intro s hs hts
    cases hst : stripPfx s with
    | none => rw [stripLoop_none hst]; exact hts
    | some t =>
      rw [stripLoop_step hst]
      exact ih t (by have := stripPfx_shrink hst; omega) (stripPfx_trimmed hst)

theorem stripLoop_trimmed (s : List Char) (hs : trimList s = s) :
    trimList (stripLoop s) = stripLoop s :=
  stripLoop_trimmed_aux s.length s le_rfl hs

theorem stripLoop_lower_aux :
    ∀ (n : Nat) (s : List Char), s.length ≤ n → lowerList s = s →
      lowerList (stripLoop s) = stripLoop s := by
  intro n
  induction n with
  | zero =>
    intro s hs hls
    cases hst : stripPfx s with
    | none => rw [stripLoop_none hst]; exact hls
    | some t => exact absurd (stripPfx_shrink hst) (by omega)
  | succ n ih =>
    intro s hs hls
    cases hst : stripPfx s with
    | none => rw [stripLoop_none hst]; exact hls
    | some t =>
      rw [stripLoop_step hst]
      exact ih t (by have := stripPfx_shrink hst; omega) (stripPfx_lower hst hls)

theorem stripLoop_lower (s : List Char) (hs : lowerList s = s) :
    lowerList (stripLoop s) = stripLoop s :=
  stripLoop_lower_aux s.length s le_rfl hs

/-- Fuelled version of the strip loop, used to state termination: `none`
means the fuel ran out before the loop stopped. -/
def stripLoopFuel : Nat → List Char → Option (List Char)
  | 0, _ => none
  | n + 1, s =>
    match stripPfx s with
    | none => some s
    | some t => if t = s then some t else stripLoopFuel n t

theorem stripLoopFuel_eq :
    ∀ (n : Nat) (s : List Char), s.length < n → stripLoopFuel n s = some (stripLoop s) := by
  intro n
  induction n with
  | zero => intro s hs; omega
  | succ n ih =>
    intro s hs
    cases hst : stripPfx s with
    | none => unfold stripLoopFuel; rw [hst, stripLoop_none hst]
    | some t =>
      have hlt := stripPfx_shrink hst
      have hne : t ≠ s := fun e => absurd hlt (by rw [e]; omega)
      unfold stripLoopFuel
      rw [hst]
      dsimp only
      rw [if_neg hne, ih t (by omega), stripLoop_step hst]

/-- C9: `normalize_subject` terminates on every input string — the strip
loop reaches its fixed point within `length + 1` iterations — and it is
idempotent: `normalize_subject (normalize_subject s) = normalize_subject s`
for every string `s`. -/
theorem c9_normalize_subject_total_and_idempotent :
    (∀ l : List Char, stripLoopFuel (l.length + 1) l = some (stripLoop l)) ∧
    (∀ s : String, normalize_subject (normalize_subject s) = normalize_subject s) := by
  constructor
  · intro l
    exact stripLoopFuel_eq (l.length + 1) l (by omega)
  · intro s
    have hxt : trimList (lowerList (trimList s.data)) = lowerList (trimList s.data) := by
      rw [trimList_lower, trimList_idem]
    have hxl : lowerList (lowerList (trimList s.data)) = lowerList (trimList s.data) :=
      lower_lower _
    have hrt := stripLoop_trimmed _ hxt
    have hrl := stripLoop_lower _ hxl
    unfold normalize_subject
    congr 1
    rw [show (String.mk (stripLoop (lowerList (trimList s.data)))).data
        = stripLoop (lowerList (trimList s.data)) from rfl]
    rw [hrt, hrl, stripLoop_none (stripLoop_strip _)]

/-! ### Data model

Rows of the SQLite tables `emails` and `folders`, and the envelope
structure of the `email` crate as consumed by `save_envelopes`.  `date`
carries the already-formatted RFC 3339 string (the chrono conversion is
injective on the values the program passes through it and none of the
claims depend on its internals). -/

/-- A fetched IMAP envelope.  `toAddr` and `hasAttachment` are carried by
the library's envelope type; `save_envelopes` never reads them. -/
structure Envelope where
  id : String
  messageId : String
  inReplyTo : Option String
  referencesHeader : Option String
  subject : String
  fromName : Option String
  fromAddr : String
  toAddr : Option String
  hasAttachment : Bool
  date : String
  flags : List String
  deriving Repr, DecidableEq

/-- One row of the `emails` table.  `flags` holds the JSON-serialized flag
list exactly as the column does. -/
structure EmailRow where
  id : Int
  accountId : Int
  folderId : Int
  remoteId : String
  messageId : String
  threadId : String
  inReplyTo : Option String
  referencesHeader : Option String
  subject : String
  normalizedSubject : Option String
  senderName : Option String
  senderAddress : String
  recipientTo : Option String
  date : String
  flags : String
  hasAttachments : Bool
  deriving Repr, DecidableEq

/-- One row of the `folders` table. -/
structure FolderRow where
  id : Int
  accountId : Int
  name : String
  path : String
  role : Option String
  uidValidity : Int
  uidNext : Int
  totalCount : Int
  unreadCount : Int
  deriving Repr, DecidableEq

/-- The two tables the sync engine touches, plus fresh-rowid counters. -/
structure Db where
  emails : List EmailRow
  folders : List FolderRow
  nextEmailId : Int
  nextFolderId : Int
  deriving Repr, DecidableEq

/-- `serde_json::to_string` of a `Vec<String>` of flag names (the flag
names produced by the `email` crate need no JSON escaping). -/
def serializeFlags (fs : List String) : String :=
  "[" ++ String.intercalate "," (fs.map (fun f => "\"" ++ f ++ "\"")) ++ "]"

def emailKeyMatch (fid : Int) (rid : String) (r : EmailRow) : Bool :=
  r.folderId == fid && r.remoteId == rid

/-- The upsert of `save_envelopes` (engine.rs:249-269):
`INSERT INTO emails (...) VALUES (...) ON CONFLICT(folder_id, remote_id)
DO UPDATE SET flags=excluded.flags`.  On conflict only `flags` is written;
on insert, columns not named in the INSERT (`recipient_to`,
`has_attachments`, bodies, snippet, summary) take their SQLite defaults. -/
def upsertEmail (aid fid : Int) (env : Envelope) (db : Db) : Db :=
  if db.emails.any (emailKeyMatch fid env.id) then
    { db with emails := db.emails.map fun r =>
        if emailKeyMatch fid env.id r then { r with flags := serializeFlags env.flags } else r }
  else
    { db with
      emails := db.emails ++ [{
        id := db.nextEmailId
        accountId := aid
        folderId := fid
        remoteId := env.id
        messageId := env.messageId
        threadId := env.messageId
        inReplyTo := env.inReplyTo
        referencesHeader := env.referencesHeader
        subject := env.subject
        normalizedSubject := some (normalize_subject env.subject)
        senderName := env.fromName
        senderAddress := env.fromAddr
        recipientTo := none
        date := env.date
        flags := serializeFlags env.flags
        hasAttachments := false }]
      nextEmailId := db.nextEmailId + 1 }

/-- SQLite's `LIKE '%pat%'` for a lower-case ASCII pattern: LIKE is
case-insensitive, so the column value is lower-cased before the infix
test. -/
def likeContains (pat : String) (s : String) : Bool :=
  decide (pat.data <:+: lowerList s.data)

/-- The `WHERE` clause of the unread-count recomputation
(engine.rs:294-298): `flags NOT LIKE '%seen%' AND flags NOT LIKE '%"seen"%'`. -/
def sqlUnseen (flags : String) : Bool :=
  !likeContains "seen" flags && !likeContains "\"seen\"" flags

def countUnseen (es : List EmailRow) (fid : Int) : Nat :=
  (es.filter (fun r => r.folderId == fid && sqlUnseen r.flags)).length

/-- An OS notification as fired by engine.rs:276-280. -/
structure Notif where
  title : String
  body : String
  deriving Repr, DecidableEq

def plainNotif (env : Envelope) : Notif :=
  { title := "New Email: " ++ env.subject
    body := "From: " ++ (env.fromName.getD env.fromAddr) }

structure SaveAcc where
  db : Db
  successCount : Nat
  failureCount : Nat
  notifs : List Notif
  deriving Repr, DecidableEq

/-- The per-envelope for-loop of `save_envelopes` (engine.rs:244-289).
`rowFails` is the oracle for per-row sqlx failures (logged and skipped).
On success SQLite reports `rows_affected() = 1` for both the insert and
the conflict-update path, so the guard `rows_affected() > 0` of the
notification branch is true on every successful row. -/
def saveLoop (rowFails : Envelope → Bool) (aid fid : Int) (notify : Bool) :
    List Envelope → SaveAcc → SaveAcc
  | [], acc => acc
  | env :: rest, acc =>
    if rowFails env then
      saveLoop rowFails aid fid notify rest { acc with failureCount := acc.failureCount + 1 }
    else
      saveLoop rowFails aid fid notify rest
        { db := upsertEmail aid fid env acc.db
          successCount := acc.successCount + 1
          failureCount := acc.failureCount
          notifs := acc.notifs ++
            (if notify && !(env.flags.contains "seen") then [plainNotif env] else []) }

structure SaveOut where
  db : Db
  ok : Bool
  notifs : List Notif
  deriving Repr, DecidableEq

/-- `save_envelopes` (engine.rs:231-310): upsert every envelope of the
batch, recompute the folder's `unread_count` from the stored rows, and
return an error (`ok = false`) iff at least one row failed and none
succeeded. -/
def save_envelopes (rowFails : Envelope → Bool) (aid fid : Int)
    (envs : List Envelope) (notify : Bool) (db : Db) : SaveOut :=
  let acc := saveLoop rowFails aid fid notify envs ⟨db, 0, 0, []⟩
  { db := { acc.db with folders := acc.db.folders.map fun f =>
      if f.id == fid then { f with unreadCount := (countUnseen acc.db.emails fid : Int) } else f }
    ok := !(decide (0 < acc.failureCount) && decide (acc.successCount = 0))
    notifs := acc.notifs }

/-! ### `sync_folder` (engine.rs:375-521) -/

/-- The folder-selection descriptor (`SelectDataUnvalidated`): optional
`NonZeroU32` values, read with `.map(|u| u.get() as i64).unwrap_or(0)`. -/
structure SelectData where
  uidValidity : Option Nat
  uidNext : Option Nat
  exists_ : Option Nat
  deriving Repr, DecidableEq

def currentUv (fd : SelectData) : Int := ((fd.uidValidity.getD 0 : Nat) : Int)
def currentUn (fd : SelectData) : Int := ((fd.uidNext.getD 0 : Nat) : Int)
def currentTotal (fd : SelectData) : Int := ((fd.exists_.getD 0 : Nat) : Int)

/-- A fetch request issued to the IMAP client: by sequence-number range
(`fetch_envelopes_by_sequence`) or by open UID range (`fetch_envelopes`). -/
inductive FetchReq where
  | seq (start fin : Nat)
  | uid (start : Nat)
  deriving Repr, DecidableEq

/-- Rust's `as u32` cast of an `i64`. -/
def toU32 (i : Int) : Nat := (i % (2 : Int) ^ 32).toNat

/-- `SELECT id, uid_validity, uid_next, role FROM folders WHERE
account_id = ? AND path = ?` (first matching row). -/
def lookupFolder (db : Db) (aid : Int) (path : String) : Option FolderRow :=
  db.folders.find? (fun f => f.accountId == aid && f.path == path)

/-- `UPDATE folders SET role = ? WHERE id = ?` (engine.rs:410-415). -/
def setStoredRole (db : Db) (fid : Int) (r : String) : Db :=
  { db with folders := db.folders.map fun g =>
      if g.id == fid then { g with role := some r } else g }

/-- `DELETE FROM emails WHERE folder_id = ?` (engine.rs:446-450). -/
def deleteFolderEmails (db : Db) (fid : Int) : Db :=
  { db with emails := db.emails.filter (fun r => !(r.folderId == fid)) }

/-- `UPDATE folders SET uid_validity = ?, uid_next = ?, total_count = ?
WHERE id = ?` (engine.rs:509-518). -/
def finalizeFolder (db : Db) (fid uv un tc : Int) : Db :=
  { db with folders := db.folders.map fun g =>
      if g.id == fid then { g with uidValidity := uv, uidNext := un, totalCount := tc } else g }

structure LoopOut where
  db : Db
  ok : Bool
  fetches : List (Nat × Nat)
  persisted : List Envelope
  notifs : List Notif
  deriving Repr, DecidableEq

/-- `let start = if end > SYNC_BATCH_SIZE { end - SYNC_BATCH_SIZE + 1 } else { 1 }`. -/
def batchStart (e : Nat) : Nat := if 100 < e then e - 100 + 1 else 1

/-- `end = if start > 1 { start - 1 } else { 0 }`. -/
def nextEnd (s : Nat) : Nat := if 1 < s then s - 1 else 0

/-- The descending sequence-number loop of the full sync
(engine.rs:455-484): batches of `SYNC_BATCH_SIZE = 100` from `exists`
down to 1, each batch persisted before the next fetch; an empty batch
breaks the loop, a failed save aborts with the error. -/
def fullSyncLoop (fetchSeq : Nat → Nat → List Envelope) (rowFails : Envelope → Bool)
    (aid fid : Int) (notify : Bool) (e : Nat) (db : Db) : LoopOut :=
  if e = 0 then ⟨db, true, [], [], []⟩
  else if fetchSeq (batchStart e) e = [] then ⟨db, true, [(batchStart e, e)], [], []⟩
  else if (save_envelopes rowFails aid fid (fetchSeq (batchStart e) e) notify db).ok then
    { db := (fullSyncLoop fetchSeq rowFails aid fid notify (nextEnd (batchStart e))
        (save_envelopes rowFails aid fid (fetchSeq (batchStart e) e) notify db).db).db
      ok := (fullSyncLoop fetchSeq rowFails aid fid notify (nextEnd (batchStart e))
        (save_envelopes rowFails aid fid (fetchSeq (batchStart e) e) notify db).db).ok
      fetches := (batchStart e, e) ::
        (fullSyncLoop fetchSeq rowFails aid fid notify (nextEnd (batchStart e))
          (save_envelopes rowFails aid fid (fetchSeq (batchStart e) e) notify db).db).fetches
      persisted := fetchSeq (batchStart e) e ++
        (fullSyncLoop fetchSeq rowFails aid fid notify (nextEnd (batchStart e))
          (save_envelopes rowFails aid fid (fetchSeq (batchStart e) e) notify db).db).persisted
      notifs := (save_envelopes rowFails aid fid (fetchSeq (batchStart e) e) notify db).notifs
        ++ (fullSyncLoop fetchSeq rowFails aid fid notify (nextEnd (batchStart e))
          (save_envelopes rowFails aid fid (fetchSeq (batchStart e) e) notify db).db).notifs }
  else
    { db := (save_envelopes rowFails aid fid (fetchSeq (batchStart e) e) notify db).db
      ok := false
      fetches := [(batchStart e, e)]
      persisted := fetchSeq (batchStart e) e
      notifs := (save_envelopes rowFails aid fid (fetchSeq (batchStart e) e) notify db).notifs }
termination_by e
decreasing_by all_goals (unfold nextEnd batchStart; split <;> split <;> omega)

structure SyncResult where
  db : Db
  ok : Bool
  fetches : List FetchReq
  persisted : List Envelope
  notifs : List Notif
  deriving Repr, DecidableEq

/-- Step 3 of `sync_folder` (engine.rs:453-521): pick full / incremental /
no-op from the stored and current folder state, run the fetches and saves,
then unconditionally write the server's `uid_validity`, `uid_next`,
`total_count` — except when a save aborted the sync. -/
def incStart (storedUn : Int) : Nat := if toU32 storedUn = 0 then 1 else toU32 storedUn

def syncModes (fetchSeq : Nat → Nat → List Envelope) (fetchUid : Nat → List Envelope)
    (rowFails : Envelope → Bool) (aid : Int) (fd : SelectData)
    (fid storedUv storedUn : Int) (db2 : Db) : SyncResult :=
  if storedUv ≠ currentUv fd ∨ storedUn = 0 then
    if (fullSyncLoop fetchSeq rowFails aid fid (!(storedUn == 0))
        (toU32 (currentTotal fd)) db2).ok then
      ⟨finalizeFolder (fullSyncLoop fetchSeq rowFails aid fid (!(storedUn == 0))
          (toU32 (currentTotal fd)) db2).db fid (currentUv fd) (currentUn fd)
          (currentTotal fd), true,
        ((fullSyncLoop fetchSeq rowFails aid fid (!(storedUn == 0))
          (toU32 (currentTotal fd)) db2).fetches).map (fun p => FetchReq.seq p.1 p.2),
        (fullSyncLoop fetchSeq rowFails aid fid (!(storedUn == 0))
          (toU32 (currentTotal fd)) db2).persisted,
        (fullSyncLoop fetchSeq rowFails aid fid (!(storedUn == 0))
          (toU32 (currentTotal fd)) db2).notifs⟩
    else
      ⟨(fullSyncLoop fetchSeq rowFails aid fid (!(storedUn == 0))
          (toU32 (currentTotal fd)) db2).db, false,
        ((fullSyncLoop fetchSeq rowFails aid fid (!(storedUn == 0))
          (toU32 (currentTotal fd)) db2).fetches).map (fun p => FetchReq.seq p.1 p.2),
        (fullSyncLoop fetchSeq rowFails aid fid (!(storedUn == 0))
          (toU32 (currentTotal fd)) db2).persisted,
        (fullSyncLoop fetchSeq rowFails aid fid (!(storedUn == 0))
          (toU32 (currentTotal fd)) db2).notifs⟩
  else if toU32 storedUn < toU32 (currentUn fd) then
    if fetchUid (incStart storedUn) = [] then
      ⟨finalizeFolder db2 fid (currentUv fd) (currentUn fd) (currentTotal fd), true,
        [FetchReq.uid (incStart storedUn)], [], []⟩
    else if (save_envelopes rowFails aid fid (fetchUid (incStart storedUn)) true db2).ok then
      ⟨finalizeFolder (save_envelopes rowFails aid fid (fetchUid (incStart storedUn))
          true db2).db fid (currentUv fd) (currentUn fd) (currentTotal fd), true,
        [FetchReq.uid (incStart storedUn)], fetchUid (incStart storedUn),
        (save_envelopes rowFails aid fid (fetchUid (incStart storedUn)) true db2).notifs⟩
    else
      ⟨(save_envelopes rowFails aid fid (fetchUid (incStart storedUn)) true db2).db, false,
        [FetchReq.uid (incStart storedUn)], fetchUid (incStart storedUn),
        (save_envelopes rowFails aid fid (fetchUid (incStart storedUn)) true db2).notifs⟩
  else
    ⟨finalizeFolder db2 fid (currentUv fd) (currentUn fd) (currentTotal fd), true, [], [], []⟩

/-- The role refresh of step 1 (engine.rs:408-417). -/
def roleUpdate (db : Db) (f : FolderRow) (role : Option String) : Db :=
  match role with
  | some r => if f.role == some r then db else setStoredRole db f.id r
  | none => db

/-- `sync_folder` (engine.rs:375-521).  `fetchSeq`/`fetchUid` are the IMAP
oracles, `rowFails` the per-row SQL failure oracle.  `fetches` records the
fetch requests issued, `persisted` the envelopes handed to
`save_envelopes`, `notifs` the OS notifications fired. -/
def sync_folder (fetchSeq : Nat → Nat → List Envelope) (fetchUid : Nat → List Envelope)
    (rowFails : Envelope → Bool) (aid : Int) (folderName : String)
    (role : Option String) (fd : SelectData) (db : Db) : SyncResult :=
  let cuv := currentUv fd
  let cun := currentUn fd
  let tc := currentTotal fd
  -- step 1: look up or create the folder row; step 2: a changed non-zero
  -- UIDVALIDITY clears the folder's local cache before any fetch
  match lookupFolder db aid folderName with
  | some f =>
    let db1 := roleUpdate db f role
    let db2 := if f.uidValidity ≠ 0 ∧ f.uidValidity ≠ cuv
      then deleteFolderEmails db1 f.id else db1
    syncModes fetchSeq fetchUid rowFails aid fd f.id f.uidValidity f.uidNext db2
  | none =>
    let fid := db.nextFolderId
    let db1 := { db with
      folders := db.folders ++ [{
        id := fid, accountId := aid, name := folderName, path := folderName,
        role := some (role.getD ""), uidValidity := cuv, uidNext := cun,
        totalCount := tc, unreadCount := 0 }]
      nextFolderId := db.nextFolderId + 1 }
    -- the fresh row is treated as stored state (0, 0); the step-2 delete
    -- condition `0 ≠ 0 ∧ _` is vacuously false
    syncModes fetchSeq fetchUid rowFails aid fd fid 0 0 db1

/-! ### Tier-3 bulk threading (`resolve_threads`, engine.rs:590-610 and
worker.rs:282-301) -/

def unlinkedRow (r : EmailRow) : Bool := r.threadId == r.messageId

/-- `normalized_subject IS NOT NULL AND normalized_subject != ''`. -/
def nsOk (r : EmailRow) : Bool :=
  match r.normalizedSubject with
  | some s => !(s == "")
  | none => false

/-- SQL `=` on the nullable `normalized_subject` column: true only when
both sides are non-NULL and equal. -/
def nsEq (a b : Option String) : Bool :=
  match a, b with
  | some x, some y => x == y
  | _, _ => false

/-- Code-point lexicographic comparison, i.e. SQLite's BINARY collation on
UTF-8 text (used by `SELECT MIN(...)` over TEXT). -/
def charListLt : List Char → List Char → Bool
  | [], [] => false
  | [], _ :: _ => true
  | _ :: _, [] => false
  | a :: as, b :: bs =>
    if a.toNat < b.toNat then true
    else if b.toNat < a.toNat then false
    else charListLt as bs

def strLt (a b : String) : Bool := charListLt a.data b.data

def minMsgId (l : List String) : Option String :=
  l.foldl (fun acc m =>
    match acc with
    | none => some m
    | some a => some (if strLt m a then m else a)) none

/-- The `e2` condition of the engine's tier-3 subquery (engine.rs:595-602):
same `account_id`, same `sender_address`, same non-NULL non-empty
`normalized_subject`; no `recipient_to` condition. -/
def engineGroupMatch (r e2 : EmailRow) : Bool :=
  e2.accountId == r.accountId && e2.senderAddress == r.senderAddress &&
  nsEq e2.normalizedSubject r.normalizedSubject && nsOk e2

/-- The `e2` condition of the worker's tier-3 subquery (worker.rs:285-292):
additionally `COALESCE(e2.recipient_to,'') = COALESCE(emails.recipient_to,'')`. -/
def workerGroupMatch (r e2 : EmailRow) : Bool :=
  e2.accountId == r.accountId && e2.senderAddress == r.senderAddress &&
  (e2.recipientTo.getD "" == r.recipientTo.getD "") &&
  nsEq e2.normalizedSubject r.normalizedSubject && nsOk e2

/-- The tier-3 bulk `UPDATE`: rows still satisfying
`thread_id = message_id`, with non-NULL non-empty `normalized_subject`,
inside the `LIMIT`-bounded id subselect, get
`thread_id := MIN(message_id)` over their group; the correlated subquery
reads the pre-update snapshot.  The `none` fall-through of `minMsgId` is
unreachable because a guarded row matches its own group condition. -/
def bulkThread (groupMatch : EmailRow → EmailRow → Bool) (limit : Nat)
    (es : List EmailRow) : List EmailRow :=
  let limited := ((es.filter unlinkedRow).take limit).map (fun r => r.id)
  es.map fun r =>
    if unlinkedRow r && nsOk r && limited.contains r.id then
      match minMsgId ((es.filter (groupMatch r)).map (fun e2 => e2.messageId)) with
      | some m => { r with threadId := m }
      | none => r
    else r

/-- engine.rs:592-610. -/
def engineBulkThread (limit : Nat) (es : List EmailRow) : List EmailRow :=
  bulkThread engineGroupMatch limit es

/-- worker.rs:282-301. -/
def workerBulkThread (limit : Nat) (es : List EmailRow) : List EmailRow :=
  bulkThread workerGroupMatch limit es

/-! ### `sync_google_account` (engine.rs:641-679) and `sync_account`
(engine.rs:628-639) -/

/-- A remote folder as listed by `list_folders`: its name and the
provider-reported kind checks `is_inbox()` / `is_sent()`. -/
structure RemoteFolder where
  name : String
  isInbox : Bool
  isSent : Bool
  deriving Repr, DecidableEq

/-- Role classification inside the folder loop of `sync_google_account`
(engine.rs:657-667): provider flags first (`is_inbox`, `is_sent`), then
the lower-cased name's substrings `"spam"` / `"junk"`; every other folder
is skipped by `continue`. -/
def googleFolderRole (f : RemoteFolder) : Option String :=
  if f.isInbox then some "inbox"
  else if f.isSent then some "sent"
  else if decide ("spam".data <:+: lowerList f.name.data)
      || decide ("junk".data <:+: lowerList f.name.data) then some "spam"
  else none

/-- The folder loop of `sync_google_account` (engine.rs:656-676): select
and `sync_folder` every folder with a recognized role, skip the rest.
Returns the `(path, role)` pairs synced, in listing order. -/
def sync_google_account_folders : List RemoteFolder → List (String × String)
  | [] => []
  | f :: rest =>
    match googleFolderRole f with
    | some r => (f.name, r) :: sync_google_account_folders rest
    | none => sync_google_account_folders rest

/-- `accounts/manager.rs:17-23`: the closed `Account` union (only the
identity fields are modelled; credentials are opaque to the engine). -/
inductive Account where
  | google (email : String) (id : Option Int)
  | microsoft (email : String) (id : Option Int)
  | imapSmtp (email : String) (id : Option Int)
  deriving Repr, DecidableEq

/-- `sync_account` (engine.rs:628-639): the dispatch
`match account { Account::Google(google) => sync_google_account(..) }`
has an arm only for the `Google` variant; no folder-synchronization code
exists for the `Microsoft` and `ImapSmtp` variants, so for them no folder
is synced. -/
def sync_account_folders (folders : List RemoteFolder) : Account → List (String × String)
  | .google _ _ => sync_google_account_folders folders
  | .microsoft _ _ => []
  | .imapSmtp _ _ => []

/-! ### Lemmas about `save_envelopes` -/

theorem upsertEmail_folders (aid fid : Int) (env : Envelope) (db : Db) :
    (upsertEmail aid fid env db).folders = db.folders := by
  unfold upsertEmail
  split <;> rfl

theorem upsertEmail_nextFolderId (aid fid : Int) (env : Envelope) (db : Db) :
    (upsertEmail aid fid env db).nextFolderId = db.nextFolderId := by
  unfold upsertEmail
  split <;> rfl

theorem saveLoop_folders (rf : Envelope → Bool) (aid fid : Int) (notify : Bool) :
    ∀ (envs : List Envelope) (acc : SaveAcc),
      (saveLoop rf aid fid notify envs acc).db.folders = acc.db.folders := by
  intro envs
  induction envs with
  | nil => intro acc; rfl
  | cons e rest ih =>
    intro acc
    unfold saveLoop
    by_cases h : rf e
    · rw [if_pos h, ih]
    · rw [if_neg h, ih]
      exact upsertEmail_folders aid fid e acc.db

theorem saveLoop_counts (rf : Envelope → Bool) (aid fid : Int) (notify : Bool) :
    ∀ (envs : List Envelope) (acc : SaveAcc),
      (saveLoop rf aid fid notify envs acc).failureCount
          = acc.failureCount + (envs.filter rf).length ∧
      (saveLoop rf aid fid notify envs acc).successCount
          = acc.successCount + (envs.filter (fun e => !rf e)).length := by
  intro envs
  induction envs with
  | nil => intro acc; constructor <;> rfl
  | cons e rest ih =>
    intro acc
    unfold saveLoop
    by_cases h : rf e
    · rw [if_pos h]
      obtain ⟨ihf, ihs⟩ := ih { acc with failureCount := acc.failureCount + 1 }
      constructor
      · rw [ihf]; simp [List.filter_cons, h]; omega
      · rw [ihs]; simp [List.filter_cons, h]
    · rw [if_neg h]
      obtain ⟨ihf, ihs⟩ := ih
        { db := upsertEmail aid fid e acc.db
          successCount := acc.successCount + 1
          failureCount := acc.failureCount
          notifs := acc.notifs ++
            (if notify && !(e.flags.contains "seen") then [plainNotif e] else []) }
      constructor
      · rw [ihf]; simp [List.filter_cons, h]
      · rw [ihs]; simp [List.filter_cons, h]; omega

theorem saveLoop_notifs (rf : Envelope → Bool) (aid fid : Int) (notify : Bool) :
    ∀ (envs : List Envelope) (acc : SaveAcc),
      (saveLoop rf aid fid notify envs acc).notifs =
        acc.notifs ++ (envs.filter
          (fun e => !rf e && notify && !(e.flags.contains "seen"))).map plainNotif := by
  intro envs
  induction envs with
  | nil => intro acc; simp [saveLoop]
  | cons e rest ih =>
    intro acc
    unfold saveLoop
    by_cases h : rf e
    · rw [if_pos h, ih]
      simp [List.filter_cons, h]
    · rw [if_neg h, ih]
      simp only [List.filter_cons, h]
      split
      · next hcond => simp_all
      · next hcond =>
        simp_all
        rw [if_neg (fun hc => hc.2 (hcond hc.1))]

theorem save_envelopes_notifs (rf : Envelope → Bool) (aid fid : Int)
    (envs : List Envelope) (notify : Bool) (db : Db) :
    (save_envelopes rf aid fid envs notify db).notifs =
      (envs.filter (fun e => !rf e && notify && !(e.flags.contains "seen"))).map plainNotif := by
  unfold save_envelopes
  dsimp only
  rw [saveLoop_notifs]
  simp

theorem save_envelopes_emails (rf : Envelope → Bool) (aid fid : Int)
    (envs : List Envelope) (notify : Bool) (db : Db) :
    (save_envelopes rf aid fid envs notify db).db.emails =
      (saveLoop rf aid fid notify envs ⟨db, 0, 0, []⟩).db.emails := rfl

theorem save_envelopes_ok_iff (rf : Envelope → Bool) (aid fid : Int)
    (envs : List Envelope) (notify : Bool) (db : Db) :
    ((save_envelopes rf aid fid envs notify db).ok = false ↔
      envs ≠ [] ∧ ∀ e ∈ envs, rf e = true) := by
  obtain ⟨hf, hs⟩ := saveLoop_counts rf aid fid notify envs ⟨db, 0, 0, []⟩
  have hok : (save_envelopes rf aid fid envs notify db).ok
      = !(decide (0 < (envs.filter rf).length)
          && decide ((envs.filter (fun e => !rf e)).length = 0)) := by
    unfold save_envelopes
    dsimp only
    rw [hf, hs]
    simp
  rw [hok]
  simp only [Bool.not_eq_false', Bool.and_eq_true, decide_eq_true_eq]
  constructor
  · rintro ⟨hpos, hzero⟩
    have hall : ∀ e ∈ envs, rf e = true := by
      intro e he
      by_contra hne
      have hmem : e ∈ envs.filter (fun x => !rf x) := by
        refine List.mem_filter.mpr ⟨he, ?_⟩
        simp only [Bool.not_eq_true'] at *
        simp [Bool.eq_false_iff.mpr hne]
      have : 0 < (envs.filter (fun x => !rf x)).length :=
        List.length_pos.mpr (List.ne_nil_of_mem hmem)
      omega
    constructor
    · intro hnil
      subst hnil
      simp at hpos
    · exact hall
  · rintro ⟨hne, hall⟩
    constructor
    · have heq : envs.filter rf = envs := List.filter_eq_self.mpr hall
      rw [heq]
      exact List.length_pos.mpr hne
    · have heq : envs.filter (fun e => !rf e) = [] := by
        rw [List.filter_eq_nil_iff]
        intro e he
        simp [hall e he]
      rw [heq]
      rfl

/-- The projection of a folder row that the final
`UPDATE folders SET uid_validity, uid_next, total_count` writes. -/
def folderSyncTriple (g : FolderRow) : Int × Int × Int × Int :=
  (g.id, g.uidValidity, g.uidNext, g.totalCount)

theorem save_envelopes_triples (rf : Envelope → Bool) (aid fid : Int)
    (envs : List Envelope) (notify : Bool) (db : Db) :
    ((save_envelopes rf aid fid envs notify db).db.folders).map folderSyncTriple
      = db.folders.map folderSyncTriple := by
  unfold save_envelopes
  dsimp only
  rw [saveLoop_folders]
  dsimp only
  rw [List.map_map]
  apply List.map_congr_left
  intro g _
  by_cases h : g.id = fid <;> simp [folderSyncTriple, h]

/-- The second `NOT LIKE '%"seen"%'` conjunct is subsumed by the first
`NOT LIKE '%seen%'`. -/
theorem sqlUnseen_eq (f : String) : sqlUnseen f = !likeContains "seen" f := by
  unfold sqlUnseen
  by_cases h : likeContains "seen" f = true
  · simp [h]
  · have h' : likeContains "seen" f = false := Bool.eq_false_iff.mpr h
    have h2 : likeContains "\"seen\"" f = false := by
      by_contra hq
      have hq' : likeContains "\"seen\"" f = true := by
        revert hq; cases likeContains "\"seen\"" f <;> simp
      unfold likeContains at hq' h'
      have hinf : ("\"seen\"").data <:+: lowerList f.data := of_decide_eq_true hq'
      have hsub : ("seen").data <:+: ("\"seen\"").data := by decide
      have : ("seen").data <:+: lowerList f.data := hsub.trans hinf
      rw [decide_eq_true this] at h'
      cases h'
    simp [h', h2]

/-- C5: after every call to `save_envelopes` — hence after every persisted
batch, in every sync mode — every folder row with the batch's folder id
has `unread_count` equal to the count of stored email rows of that folder
whose flags lack `"seen"` (recomputed from the stored rows themselves,
not from any externally passed delta). -/
theorem c5_unread_count_recomputed (rf : Envelope → Bool) (aid fid : Int)
    (envs : List Envelope) (notify : Bool) (db : Db) :
    ∀ g ∈ (save_envelopes rf aid fid envs notify db).db.folders, g.id = fid →
      g.unreadCount = (((save_envelopes rf aid fid envs notify db).db.emails.filter
        (fun r => r.folderId == fid && !likeContains "seen" r.flags)).length : Int) := by
  intro g hg hid
  have hemails : (save_envelopes rf aid fid envs notify db).db.emails =
      (saveLoop rf aid fid notify envs ⟨db, 0, 0, []⟩).db.emails := rfl
  have hfolders : (save_envelopes rf aid fid envs notify db).db.folders =
      ((saveLoop rf aid fid notify envs ⟨db, 0, 0, []⟩).db.folders).map (fun f =>
        if f.id == fid then
          { f with unreadCount := (countUnseen
              (saveLoop rf aid fid notify envs ⟨db, 0, 0, []⟩).db.emails fid : Int) }
        else f) := rfl
  rw [hfolders] at hg
  obtain ⟨g0, _, hg0⟩ := List.mem_map.mp hg
  by_cases h : (g0.id == fid) = true
  · rw [if_pos h] at hg0
    subst hg0
    rw [hemails]
    have : countUnseen (saveLoop rf aid fid notify envs ⟨db, 0, 0, []⟩).db.emails fid
        = ((saveLoop rf aid fid notify envs ⟨db, 0, 0, []⟩).db.emails.filter
            (fun r => r.folderId == fid && !likeContains "seen" r.flags)).length := by
      unfold countUnseen
      congr 1
      apply List.filter_congr
      intro r _
      rw [sqlUnseen_eq]
    simp [this]
  · rw [if_neg h] at hg0
    subst hg0
    exact absurd (by simp [hid]) h

def c5DbW : Db :=
  ⟨[], [⟨1, 1, "INBOX", "INBOX", some "inbox", 5, 9, 1, 7⟩], 1, 2⟩

def c5EnvW : Envelope :=
  { id := "9", messageId := "m9", inReplyTo := none, referencesHeader := none,
    subject := "Hello", fromName := some "Al", fromAddr := "al@x.com", toAddr := none,
    hasAttachment := false, date := "2026-01-01T00:00:00Z", flags := [] }

def c5FolderW : FolderRow := ⟨1, 1, "INBOX", "INBOX", some "inbox", 5, 9, 1, 1⟩

theorem c5_unread_count_recomputed_witness :
    c5FolderW.unreadCount = (((save_envelopes (fun _ => false) 1 1 [c5EnvW] true
        c5DbW).db.emails.filter
      (fun r => r.folderId == 1 && !likeContains "seen" r.flags)).length : Int) :=
  c5_unread_count_recomputed (fun _ => false) 1 1 [c5EnvW] true c5DbW c5FolderW
    (by decide) (by decide)

/-- C7 counterexample: the claim states the account-sync classification
maps folders named "trash"/"bin"/"deleted" to the trash role and
"archive"/"all mail" to the archive role; the code recognizes neither — a
folder named "Trash" (or "Archive") that carries no inbox/sent flag is
given no role at all and the folder loop skips it without syncing. -/
theorem c7_counterexample :
    googleFolderRole ⟨"Trash", false, false⟩ = none ∧
    googleFolderRole ⟨"Archive", false, false⟩ = none ∧
    sync_google_account_folders
      [⟨"Trash", false, false⟩, ⟨"Archive", false, false⟩] = [] := by
  refine ⟨by decide, by decide, by decide⟩

/-- C7 amended: `sync_google_account` classifies by provider-reported
flags first (`is_inbox` → inbox, `is_sent` → sent) and by name substrings
second, but the only name rule is "spam"/"junk" → spam; every folder
matching no rule — including trash/bin/deleted and archive/all-mail
names — maps to no role, and the folder sync is invoked exactly for the
folders with a recognized role. -/
theorem c7_google_folder_classification (fs : List RemoteFolder) (f : RemoteFolder) :
    sync_google_account_folders fs =
      fs.filterMap (fun g => (googleFolderRole g).map (fun r => (g.name, r))) ∧
    (f.isInbox = true → googleFolderRole f = some "inbox") ∧
    (f.isInbox = false → f.isSent = true → googleFolderRole f = some "sent") ∧
    (f.isInbox = false → f.isSent = false →
      ("spam".data <:+: lowerList f.name.data ∨ "junk".data <:+: lowerList f.name.data) →
      googleFolderRole f = some "spam") ∧
    (googleFolderRole f = none ↔
      f.isInbox = false ∧ f.isSent = false ∧
      ¬ ("spam".data <:+: lowerList f.name.data) ∧
      ¬ ("junk".data <:+: lowerList f.name.data)) := by
  refine ⟨?_, ?_, ?_, ?_, ?_⟩
  · induction fs with
    | nil => rfl
    | cons g rest ih =>
      unfold sync_google_account_folders
      cases hr : googleFolderRole g with
      | none => simp [List.filterMap_cons, hr, ih]
      | some r => simp [List.filterMap_cons, hr, ih]
  · intro h
    unfold googleFolderRole
    rw [if_pos h]
  · intro h1 h2
    unfold googleFolderRole
    rw [if_neg (by simp [h1]), if_pos h2]
  · intro h1 h2 h3
    unfold googleFolderRole
    rw [if_neg (by simp [h1]), if_neg (by simp [h2]), if_pos (by
      rcases h3 with h | h
      · simp [h]
      · simp [h])]
  · unfold googleFolderRole
    constructor
    · intro hnone
      by_cases h1 : f.isInbox = true
      · rw [if_pos h1] at hnone; cases hnone
      · have h1' : f.isInbox = false := Bool.eq_false_iff.mpr h1
        rw [if_neg (by simp [h1'])] at hnone
        by_cases h2 : f.isSent = true
        · rw [if_pos h2] at hnone; cases hnone
        · have h2' : f.isSent = false := Bool.eq_false_iff.mpr h2
          rw [if_neg (by simp [h2'])] at hnone
          by_cases h3 : (decide ("spam".data <:+: lowerList f.name.data)
              || decide ("junk".data <:+: lowerList f.name.data)) = true
          · rw [if_pos h3] at hnone; cases hnone
          · simp only [Bool.or_eq_true, decide_eq_true_eq] at h3
            push_neg at h3
            exact ⟨h1', h2', h3.1, h3.2⟩
    · rintro ⟨h1, h2, h3, h4⟩
      rw [if_neg (by simp [h1]), if_neg (by simp [h2]), if_neg (by simp [h3, h4])]

def c7FolderW : RemoteFolder := ⟨"Spam stuff", false, false⟩

theorem c7_google_folder_classification_witness :
    googleFolderRole c7FolderW = some "spam" :=
  (c7_google_folder_classification [] c7FolderW).2.2.2.1 (by decide) (by decide)
    (Or.inl (by decide))

/-- C10: the `Account` tagged union declares the Google, Microsoft and
ImapSmtp variants, yet `sync_account` dispatches only the Google variant:
for every Microsoft or ImapSmtp account the periodic/full sync driver
performs no folder synchronization, while a Google account syncs the
folders recognized by `sync_google_account`. -/
theorem c10_sync_account_google_only :
    (∀ a : Account, (∃ e i, a = Account.google e i) ∨
        (∃ e i, a = Account.microsoft e i) ∨ (∃ e i, a = Account.imapSmtp e i)) ∧
    (∀ (folders : List RemoteFolder) (e : String) (i : Option Int),
        sync_account_folders folders (Account.microsoft e i) = [] ∧
        sync_account_folders folders (Account.imapSmtp e i) = []) ∧
    (∀ (folders : List RemoteFolder) (e : String) (i : Option Int),
        sync_account_folders folders (Account.google e i)
          = sync_google_account_folders folders) := by
  refine ⟨?_, ?_, ?_⟩
  · intro a
    cases a with
    | google e i => exact Or.inl ⟨e, i, rfl⟩
    | microsoft e i => exact Or.inr (Or.inl ⟨e, i, rfl⟩)
    | imapSmtp e i => exact Or.inr (Or.inr ⟨e, i, rfl⟩)
  · intro folders e i
    exact ⟨rfl, rfl⟩
  · intro folders e i
    rfl

/-- The grouping key of the worker's tier-3 fallback:
`(account_id, sender_address, COALESCE(recipient_to,''), normalized_subject)`. -/
def workerKey (r : EmailRow) : Int × String × String × Option String :=
  (r.accountId, r.senderAddress, r.recipientTo.getD "", r.normalizedSubject)

/-- The grouping key of the engine's tier-3 fallback:
`(account_id, sender_address, normalized_subject)` — no `recipient_to`. -/
def engineKey (r : EmailRow) : Int × String × Option String :=
  (r.accountId, r.senderAddress, r.normalizedSubject)

theorem workerGroupMatch_key {r : EmailRow} (hr : nsOk r = true) (e2 : EmailRow) :
    workerGroupMatch r e2 = decide (workerKey e2 = workerKey r) := by
  rw [Bool.eq_iff_iff]
  unfold workerGroupMatch workerKey
  simp only [Bool.and_eq_true, beq_iff_eq, decide_eq_true_eq, Prod.mk.injEq]
  unfold nsOk at hr ⊢
  unfold nsEq
  cases hrs : r.normalizedSubject with
  | none => rw [hrs] at hr; cases hr
  | some s =>
    rw [hrs] at hr
    have hs : s ≠ "" := by simpa using hr
    cases hes : e2.normalizedSubject with
    | none => simp
    | some t =>
      simp only [Option.some.injEq, beq_iff_eq]
      constructor
      · intro h
        exact ⟨h.1.1.1.1, h.1.1.1.2, h.1.1.2, h.1.2⟩
      · rintro ⟨ha, hb, hc, hts⟩
        subst hts
        refine ⟨⟨⟨⟨ha, hb⟩, hc⟩, rfl⟩, ?_⟩
        simpa using hs

theorem engineGroupMatch_key {r : EmailRow} (hr : nsOk r = true) (e2 : EmailRow) :
    engineGroupMatch r e2 = decide (engineKey e2 = engineKey r) := by
  rw [Bool.eq_iff_iff]
  unfold engineGroupMatch engineKey
  simp only [Bool.and_eq_true, beq_iff_eq, decide_eq_true_eq, Prod.mk.injEq]
  unfold nsOk at hr ⊢
  unfold nsEq
  cases hrs : r.normalizedSubject with
  | none => rw [hrs] at hr; cases hr
  | some s =>
    rw [hrs] at hr
    have hs : s ≠ "" := by simpa using hr
    cases hes : e2.normalizedSubject with
    | none => simp
    | some t =>
      simp only [Option.some.injEq, beq_iff_eq]
      constructor
      · intro h
        exact ⟨h.1.1.1, h.1.1.2, h.1.2⟩
      · rintro ⟨ha, hb, hts⟩
        subst hts
        refine ⟨⟨⟨ha, hb⟩, rfl⟩, ?_⟩
        simpa using hs

/-- Modelled from the claim's words, for comparison with the code: tier-3
as C8 states it — group rows sharing
`(account_id, sender_address, recipient_to, normalized_subject)`,
restricted to rows whose `thread_id` still equals `message_id` and whose
`normalized_subject` is non-empty, and set every member's `thread_id` to
the minimum `message_id` of its group. -/
def claimedBulkThread (es : List EmailRow) : List EmailRow :=
  es.map fun r =>
    if unlinkedRow r && nsOk r then
      match minMsgId ((es.filter (fun e2 =>
          e2.accountId == r.accountId && e2.senderAddress == r.senderAddress &&
          e2.recipientTo == r.recipientTo &&
          e2.normalizedSubject == r.normalizedSubject)).map (fun e2 => e2.messageId)) with
      | some m => { r with threadId := m }
      | none => r
    else r

def c8RowA : EmailRow :=
  { id := 1, accountId := 1, folderId := 1, remoteId := "r2", messageId := "m2",
    threadId := "m2", inReplyTo := none, referencesHeader := none, subject := "s",
    normalizedSubject := some "s", senderName := none, senderAddress := "al@x.com",
    recipientTo := some "x@x.com", date := "d", flags := "[]", hasAttachments := false }

def c8RowB : EmailRow :=
  { id := 2, accountId := 1, folderId := 1, remoteId := "r1", messageId := "m1",
    threadId := "m1", inReplyTo := none, referencesHeader := none, subject := "s",
    normalizedSubject := some "s", senderName := none, senderAddress := "al@x.com",
    recipientTo := some "y@x.com", date := "d", flags := "[]", hasAttachments := false }

/-- C8 counterexample: two unlinked rows of one account share the sender
and the non-empty normalized subject but have different `recipient_to`.
Under the claim's grouping (and under worker.rs) each is its own group,
so the first row keeps `thread_id = "m2"`; the engine's tier-3 fallback
(engine.rs:592-610) groups without `recipient_to` and rewrites the first
row's `thread_id` to `"m1"`. -/
theorem c8_counterexample :
    (engineBulkThread 100 [c8RowA, c8RowB]).map (fun r => r.threadId) = ["m1", "m1"] ∧
    (claimedBulkThread [c8RowA, c8RowB]).map (fun r => r.threadId) = ["m2", "m1"] ∧
    (workerBulkThread 100 [c8RowA, c8RowB]).map (fun r => r.threadId) = ["m2", "m1"] := by
  refine ⟨by decide, by decide, by decide⟩

/-- C8 amended: both tier-3 fallbacks apply only to rows whose `thread_id`
still equals `message_id` and whose `normalized_subject` is non-NULL and
non-empty (within the `LIMIT`-bounded id subset), and assign the minimum
`message_id` of the row's group — but the grouping key differs between
the two copies of `resolve_threads`: worker.rs groups by
`(account_id, sender_address, COALESCE(recipient_to, ''),
normalized_subject)` while engine.rs groups only by
`(account_id, sender_address, normalized_subject)`, ignoring
`recipient_to`. -/
theorem c8_bulk_threading_grouping (limit : Nat) (es : List EmailRow) :
    workerBulkThread limit es = es.map (fun r =>
      if unlinkedRow r && nsOk r &&
          (((es.filter unlinkedRow).take limit).map (fun x => x.id)).contains r.id then
        { r with threadId := Option.getD (minMsgId ((es.filter (fun e2 =>
            decide (workerKey e2 = workerKey r))).map (fun e2 => e2.messageId))) r.threadId }
      else r) ∧
    engineBulkThread limit es = es.map (fun r =>
      if unlinkedRow r && nsOk r &&
          (((es.filter unlinkedRow).take limit).map (fun x => x.id)).contains r.id then
        { r with threadId := Option.getD (minMsgId ((es.filter (fun e2 =>
            decide (engineKey e2 = engineKey r))).map (fun e2 => e2.messageId))) r.threadId }
      else r) := by
  constructor
  · unfold workerBulkThread bulkThread
    apply List.map_congr_left
    intro r _
    by_cases hg : (unlinkedRow r && nsOk r &&
        (((es.filter unlinkedRow).take limit).map (fun x => x.id)).contains r.id) = true
    · rw [if_pos hg, if_pos hg]
      have hn : nsOk r = true := by
        have := hg
        simp only [Bool.and_eq_true] at this
        exact this.1.2
      have hfe : es.filter (workerGroupMatch r)
          = es.filter (fun e2 => decide (workerKey e2 = workerKey r)) := by
        apply List.filter_congr
        intro e2 _
        exact workerGroupMatch_key hn e2
      rw [hfe]
      cases hm : minMsgId ((es.filter (fun e2 =>
          decide (workerKey e2 = workerKey r))).map (fun e2 => e2.messageId)) with
      | none => rfl
      | some m => rfl
    · rw [if_neg hg, if_neg hg]
  · unfold engineBulkThread bulkThread
    apply List.map_congr_left
    intro r _
    by_cases hg : (unlinkedRow r && nsOk r &&
        (((es.filter unlinkedRow).take limit).map (fun x => x.id)).contains r.id) = true
    · rw [if_pos hg, if_pos hg]
      have hn : nsOk r = true := by
        have := hg
        simp only [Bool.and_eq_true] at this
        exact this.1.2
      have hfe : es.filter (engineGroupMatch r)
          = es.filter (fun e2 => decide (engineKey e2 = engineKey r)) := by
        apply List.filter_congr
        intro e2 _
        exact engineGroupMatch_key hn e2
      rw [hfe]
      cases hm : minMsgId ((es.filter (fun e2 =>
          decide (engineKey e2 = engineKey r))).map (fun e2 => e2.messageId)) with
      | none => rfl
      | some m => rfl
    · rw [if_neg hg, if_neg hg]

/-! ### C4: the upsert's conflict behaviour and idempotence -/

/-- The flags-only conflict update of the upsert, as a per-row function. -/
def applyEnv (fid : Int) (env : Envelope) (r : EmailRow) : EmailRow :=
  if emailKeyMatch fid env.id r then { r with flags := serializeFlags env.flags } else r

/-- Running a whole batch through the upsert (the row loop of
`save_envelopes` restricted to its successful writes). -/
def upsertBatch (aid fid : Int) (envs : List Envelope) (db : Db) : Db :=
  envs.foldl (fun d e => upsertEmail aid fid e d) db

def applyAll (fid : Int) (envs : List Envelope) (r : EmailRow) : EmailRow :=
  envs.foldl (fun r e => applyEnv fid e r) r

theorem emailKeyMatch_applyEnv (fid : Int) (x : String) (env : Envelope) (r : EmailRow) :
    emailKeyMatch fid x (applyEnv fid env r) = emailKeyMatch fid x r := by
  unfold applyEnv
  split <;> rfl

theorem emailKeyMatch_setFlags (fid : Int) (x : String) (f : String) (r : EmailRow) :
    emailKeyMatch fid x { r with flags := f } = emailKeyMatch fid x r := rfl

theorem emailKeyMatch_applyAll (fid : Int) (x : String) (envs : List Envelope) (r : EmailRow) :
    emailKeyMatch fid x (applyAll fid envs r) = emailKeyMatch fid x r := by
  induction envs generalizing r with
  | nil => rfl
  | cons e rest ih =>
    show emailKeyMatch fid x (applyAll fid rest (applyEnv fid e r)) = _
    rw [ih, emailKeyMatch_applyEnv]

theorem upsertEmail_present {aid fid : Int} {env : Envelope} {db : Db}
    (h : db.emails.any (emailKeyMatch fid env.id) = true) :
    upsertEmail aid fid env db = { db with emails := db.emails.map (applyEnv fid env) } := by
  unfold upsertEmail applyEnv
  rw [if_pos h]

theorem any_key_map_applyEnv (fid : Int) (x : String) (env : Envelope) (l : List EmailRow) :
    (l.map (applyEnv fid env)).any (emailKeyMatch fid x) = l.any (emailKeyMatch fid x) := by
  induction l with
  | nil => rfl
  | cons r rest ih => simp [List.any_cons, ih, emailKeyMatch_applyEnv]

theorem upsertEmail_adds_key (aid fid : Int) (env : Envelope) (db : Db) :
    (upsertEmail aid fid env db).emails.any (emailKeyMatch fid env.id) = true := by
  by_cases h : db.emails.any (emailKeyMatch fid env.id) = true
  · rw [upsertEmail_present h]
    dsimp only
    rw [any_key_map_applyEnv]
    exact h
  · unfold upsertEmail
    rw [if_neg h]
    dsimp only
    rw [List.any_append]
    simp [emailKeyMatch]

theorem upsertEmail_keeps_key (aid fid : Int) (x : String) (env : Envelope) (db : Db)
    (h : db.emails.any (emailKeyMatch fid x) = true) :
    (upsertEmail aid fid env db).emails.any (emailKeyMatch fid x) = true := by
  by_cases hp : db.emails.any (emailKeyMatch fid env.id) = true
  · rw [upsertEmail_present hp]
    dsimp only
    rw [any_key_map_applyEnv]
    exact h
  · unfold upsertEmail
    rw [if_neg hp]
    dsimp only
    rw [List.any_append, h]
    rfl

theorem upsertBatch_keeps_key (aid fid : Int) (x : String) (envs : List Envelope) (db : Db)
    (h : db.emails.any (emailKeyMatch fid x) = true) :
    (upsertBatch aid fid envs db).emails.any (emailKeyMatch fid x) = true := by
  induction envs generalizing db with
  | nil => exact h
  | cons e rest ih =>
    show (upsertBatch aid fid rest (upsertEmail aid fid e db)).emails.any _ = true
    exact ih _ (upsertEmail_keeps_key aid fid x e db h)

theorem upsertBatch_all_keys (aid fid : Int) (envs : List Envelope) (db : Db) :
    ∀ e ∈ envs, (upsertBatch aid fid envs db).emails.any (emailKeyMatch fid e.id) = true := by
  induction envs generalizing db with
  | nil => intro e he; cases he
  | cons e' rest ih =>
    intro e he
    show (upsertBatch aid fid rest (upsertEmail aid fid e' db)).emails.any _ = true
    rcases List.mem_cons.mp he with h | h
    · subst h
      exact upsertBatch_keeps_key aid fid e.id rest _ (upsertEmail_adds_key aid fid e db)
    · exact ih _ e h

theorem upsertBatch_of_all_present (aid fid : Int) :
    ∀ (envs : List Envelope) (db : Db),
      (∀ e ∈ envs, db.emails.any (emailKeyMatch fid e.id) = true) →
      upsertBatch aid fid envs db
        = { db with emails := db.emails.map (applyAll fid envs) } := by
  intro envs
  induction envs with
  | nil =>
    intro db _
    show db = _
    have h0 : applyAll fid [] = fun r => r := rfl
    have : db.emails.map (applyAll fid []) = db.emails := by
      rw [h0, List.map_id']
    rw [this]
  | cons e rest ih =>
    intro db hall
    show upsertBatch aid fid rest (upsertEmail aid fid e db) = _
    rw [upsertEmail_present (hall e (List.mem_cons_self e rest))]
    rw [ih _ (by
      intro e' he'
      dsimp only
      rw [any_key_map_applyEnv]
      exact hall e' (List.mem_cons_of_mem e he'))]
    dsimp only
    rw [List.map_map]
    rfl

theorem applyAll_find (fid : Int) :
    ∀ (envs : List Envelope) (r : EmailRow),
      applyAll fid envs r =
        match envs.reverse.find? (fun e => emailKeyMatch fid e.id r) with
        | some e => { r with flags := serializeFlags e.flags }
        | none => r := by
  intro envs
  induction envs with
  | nil => intro r; rfl
  | cons e rest ih =>
    intro r
    show applyAll fid rest (applyEnv fid e r) = _
    have hrev : (e :: rest).reverse = rest.reverse ++ [e] := by simp
    rw [hrev, List.find?_append]
    by_cases hm : emailKeyMatch fid e.id r = true
    · have happ : applyEnv fid e r = { r with flags := serializeFlags e.flags } := by
        unfold applyEnv
        rw [if_pos hm]
      rw [happ, ih]
      have hpred : (fun (e' : Envelope) => emailKeyMatch fid e'.id
            { r with flags := serializeFlags e.flags })
          = (fun (e' : Envelope) => emailKeyMatch fid e'.id r) := rfl
      rw [hpred]
      cases hfind : rest.reverse.find? (fun (e' : Envelope) => emailKeyMatch fid e'.id r) with
      | some e' => rfl
      | none =>
        have hone : List.find? (fun (e' : Envelope) => emailKeyMatch fid e'.id r) [e]
            = some e := by
          simp [List.find?, hm]
        rw [hone]
        rfl
    · have happ : applyEnv fid e r = r := by
        unfold applyEnv
        rw [if_neg hm]
      rw [happ, ih]
      cases hfind : rest.reverse.find? (fun (e' : Envelope) => emailKeyMatch fid e'.id r) with
      | some e' => rfl
      | none =>
        have hone : List.find? (fun (e' : Envelope) => emailKeyMatch fid e'.id r) [e]
            = none := by
          simp [List.find?, hm]
        rw [hone]
        rfl

theorem applyAll_setFlags (fid : Int) (envs : List Envelope) (r : EmailRow) (f : String)
    (hex : ∃ e ∈ envs, emailKeyMatch fid e.id r = true) :
    applyAll fid envs { r with flags := f } = applyAll fid envs r := by
  rw [applyAll_find, applyAll_find]
  have hpred : (fun (e' : Envelope) => emailKeyMatch fid e'.id { r with flags := f })
      = (fun (e' : Envelope) => emailKeyMatch fid e'.id r) := rfl
  rw [hpred]
  obtain ⟨e, he, hm⟩ := hex
  have hexr : ∃ e' ∈ envs.reverse,
      (fun (e' : Envelope) => emailKeyMatch fid e'.id r) e' = true :=
    ⟨e, List.mem_reverse.mpr he, hm⟩
  have hsome : (envs.reverse.find? (fun (e' : Envelope) => emailKeyMatch fid e'.id r)).isSome := by
    rw [List.find?_isSome]
    exact hexr
  cases hfind : envs.reverse.find? (fun (e' : Envelope) => emailKeyMatch fid e'.id r) with
  | none => rw [hfind] at hsome; cases hsome
  | some e' => rfl

theorem applyAll_of_no_match (fid : Int) (envs : List Envelope) (r : EmailRow)
    (hno : ∀ e ∈ envs, emailKeyMatch fid e.id r = false) :
    applyAll fid envs r = r := by
  rw [applyAll_find]
  have : envs.reverse.find? (fun e => emailKeyMatch fid e.id r) = none := by
    rw [List.find?_eq_none]
    intro e he
    simp [hno e (List.mem_reverse.mp he)]
  rw [this]

theorem upsertEmail_flags_of_key (aid fid : Int) (env : Envelope) (db : Db) (r : EmailRow)
    (hr : r ∈ (upsertEmail aid fid env db).emails)
    (hm : emailKeyMatch fid env.id r = true) :
    r.flags = serializeFlags env.flags := by
  by_cases h : db.emails.any (emailKeyMatch fid env.id) = true
  · rw [upsertEmail_present h] at hr
    dsimp only at hr
    obtain ⟨r0, _, hr0⟩ := List.mem_map.mp hr
    unfold applyEnv at hr0
    by_cases hm0 : emailKeyMatch fid env.id r0 = true
    · rw [if_pos hm0] at hr0
      subst hr0
      rfl
    · rw [if_neg hm0] at hr0
      subst hr0
      exact absurd hm hm0
  · unfold upsertEmail at hr
    rw [if_neg h] at hr
    dsimp only at hr
    rcases List.mem_append.mp hr with hold | hnew
    · exfalso
      apply h
      exact List.any_eq_true.mpr ⟨r, hold, hm⟩
    · rcases List.mem_singleton.mp hnew with rfl
      rfl

theorem upsertEmail_untouched (aid fid : Int) (env : Envelope) (db : Db) (r : EmailRow)
    (hr : r ∈ (upsertEmail aid fid env db).emails)
    (hm : emailKeyMatch fid env.id r = false) :
    r ∈ db.emails := by
  by_cases h : db.emails.any (emailKeyMatch fid env.id) = true
  · rw [upsertEmail_present h] at hr
    dsimp only at hr
    obtain ⟨r0, hr0mem, hr0⟩ := List.mem_map.mp hr
    unfold applyEnv at hr0
    by_cases hm0 : emailKeyMatch fid env.id r0 = true
    · rw [if_pos hm0] at hr0
      exfalso
      have hk : emailKeyMatch fid env.id r = true := by
        rw [← hr0, emailKeyMatch_setFlags]
        exact hm0
      rw [hk] at hm
      cases hm
    · rw [if_neg hm0] at hr0
      subst hr0
      exact hr0mem
  · unfold upsertEmail at hr
    rw [if_neg h] at hr
    dsimp only at hr
    rcases List.mem_append.mp hr with hold | hnew
    · exact hold
    · rcases List.mem_singleton.mp hnew with rfl
      simp [emailKeyMatch] at hm

theorem upsertBatch_untouched (aid fid : Int) :
    ∀ (envs : List Envelope) (db : Db) (r : EmailRow),
      r ∈ (upsertBatch aid fid envs db).emails →
      (∀ e ∈ envs, emailKeyMatch fid e.id r = false) →
      r ∈ db.emails := by
  intro envs
  induction envs with
  | nil => intro db r hr _; exact hr
  | cons e rest ih =>
    intro db r hr hno
    have h1 : r ∈ (upsertEmail aid fid e db).emails :=
      ih _ r hr (fun e' he' => hno e' (List.mem_cons_of_mem e he'))
    exact upsertEmail_untouched aid fid e db r h1 (hno e (List.mem_cons_self e rest))

theorem upsertBatch_rows_fixed (aid fid : Int) :
    ∀ (envs : List Envelope) (db : Db) (r : EmailRow),
      r ∈ (upsertBatch aid fid envs db).emails →
      applyAll fid envs r = r := by
  intro envs
  induction envs with
  | nil => intro db r _; rfl
  | cons e rest ih =>
    intro db r hr
    have hrest : applyAll fid rest r = r := ih (upsertEmail aid fid e db) r hr
    show applyAll fid rest (applyEnv fid e r) = r
    by_cases hm : emailKeyMatch fid e.id r = true
    · have happ : applyEnv fid e r = { r with flags := serializeFlags e.flags } := by
        unfold applyEnv
        rw [if_pos hm]
      rw [happ]
      by_cases hex : ∃ e' ∈ rest, emailKeyMatch fid e'.id r = true
      · rw [applyAll_setFlags fid rest r _ hex]
        exact hrest
      · push_neg at hex
        have hno : ∀ e' ∈ rest, emailKeyMatch fid e'.id r = false := by
          intro e' he'
          exact Bool.eq_false_iff.mpr (hex e' he')
        have hr1 : r ∈ (upsertEmail aid fid e db).emails :=
          upsertBatch_untouched aid fid rest _ r hr hno
        have hfl : r.flags = serializeFlags e.flags :=
          upsertEmail_flags_of_key aid fid e db r hr1 hm
        have hsame : ({ r with flags := serializeFlags e.flags } : EmailRow) = r := by
          rw [← hfl]
        rw [hsame]
        exact hrest
    · have happ : applyEnv fid e r = r := by
        unfold applyEnv
        rw [if_neg hm]
      rw [happ]
      exact hrest

def eraseFlags (r : EmailRow) : EmailRow := { r with flags := "" }

/-- C4 amended: on a `(folder_id, remote_id)` conflict the upsert writes
only the `flags` column — `has_attachments` and `recipient_to` are not
written at all (the INSERT does not even name them) — so every column
except `flags` is unchanged by a conflicting upsert, and re-running the
exact same envelope batch through the upsert twice leaves the whole
`emails` table byte-identical (the second pass re-writes every `flags`
value to the batch's last write, which it already holds). -/
theorem c4_upsert_flags_only_and_idempotent (aid fid : Int) (env : Envelope)
    (envs : List Envelope) (db : Db) :
    (db.emails.any (emailKeyMatch fid env.id) = true →
      (upsertEmail aid fid env db).emails.map eraseFlags = db.emails.map eraseFlags ∧
      (upsertEmail aid fid env db).folders = db.folders ∧
      (upsertEmail aid fid env db).nextEmailId = db.nextEmailId) ∧
    upsertBatch aid fid envs (upsertBatch aid fid envs db) = upsertBatch aid fid envs db := by
  constructor
  · intro h
    refine ⟨?_, upsertEmail_folders aid fid env db, ?_⟩
    · rw [upsertEmail_present h]
      dsimp only
      rw [List.map_map]
      apply List.map_congr_left
      intro r _
      show eraseFlags (applyEnv fid env r) = eraseFlags r
      unfold applyEnv eraseFlags
      split <;> rfl
    · rw [upsertEmail_present h]
  · have hall := upsertBatch_all_keys aid fid envs db
    rw [upsertBatch_of_all_present aid fid envs _ hall]
    have hmap : (upsertBatch aid fid envs db).emails.map (applyAll fid envs)
        = (upsertBatch aid fid envs db).emails := by
      rw [List.map_congr_left
        (fun r hr => upsertBatch_rows_fixed aid fid envs db r hr)]
      exact List.map_id' _
    rw [hmap]

def c4Row : EmailRow :=
  { id := 1, accountId := 1, folderId := 1, remoteId := "r1", messageId := "m1",
    threadId := "m1", inReplyTo := none, referencesHeader := none, subject := "s",
    normalizedSubject := some "s", senderName := none, senderAddress := "al@x.com",
    recipientTo := none, date := "d", flags := "[]", hasAttachments := false }

def c4Db : Db := ⟨[c4Row], [], 2, 1⟩

def c4Env : Envelope :=
  { id := "r1", messageId := "m1", inReplyTo := none, referencesHeader := none,
    subject := "s", fromName := none, fromAddr := "al@x.com", toAddr := some "to@x.com",
    hasAttachment := true, date := "d", flags := ["seen"] }

/-- C4 counterexample: the stored row has `recipient_to = NULL` and
`has_attachments = false`; the conflicting envelope carries
`to = "to@x.com"` and `has_attachment = true`.  The claim says the
conflict-update fills `recipient_to` (previously null) and updates
`has_attachments`; the code's `DO UPDATE SET flags=excluded.flags`
(engine.rs:252-253) leaves both untouched. -/
theorem c4_counterexample :
    (upsertEmail 1 1 c4Env c4Db).emails.map (fun r => (r.recipientTo, r.hasAttachments))
      = [((none : Option String), false)] ∧
    ((none : Option String), false) ≠ (some "to@x.com", true) := by
  refine ⟨by decide, by decide⟩

def c4WitnessDb : Db := ⟨[c4Row], [], 2, 1⟩

theorem c4_upsert_flags_only_and_idempotent_witness :
    (upsertEmail 1 1 c4Env c4WitnessDb).emails.map eraseFlags
        = c4WitnessDb.emails.map eraseFlags ∧
    (upsertEmail 1 1 c4Env c4WitnessDb).folders = c4WitnessDb.folders ∧
    (upsertEmail 1 1 c4Env c4WitnessDb).nextEmailId = c4WitnessDb.nextEmailId :=
  (c4_upsert_flags_only_and_idempotent 1 1 c4Env [c4Env] c4WitnessDb).1 (by decide)

/-! ### C6: notifications -/

theorem save_envelopes_notifs_no_notify (rf : Envelope → Bool) (aid fid : Int)
    (envs : List Envelope) (db : Db) :
    (save_envelopes rf aid fid envs false db).notifs = [] := by
  rw [save_envelopes_notifs]
  have h : envs.filter (fun e => !rf e && false && !(e.flags.contains "seen")) = [] := by
    rw [List.filter_eq_nil_iff]
    intro e _
    simp
  rw [h]
  rfl

theorem fullSyncLoop_notifs_no_notify (fs : Nat → Nat → List Envelope)
    (rf : Envelope → Bool) (aid fid : Int) :
    ∀ (e : Nat) (db : Db), (fullSyncLoop fs rf aid fid false e db).notifs = [] := by
  intro e
  induction e using Nat.strong_induction_on with
  | _ e ih =>
    intro db
    unfold fullSyncLoop
    by_cases he : e = 0
    · rw [if_pos he]
    · rw [if_neg he]
      have hlt : nextEnd (batchStart e) < e := by
        unfold nextEnd batchStart
        split <;> split <;> omega
      by_cases hemp : fs (batchStart e) e = []
      · rw [if_pos hemp]
      · rw [if_neg hemp]
        by_cases hok : (save_envelopes rf aid fid (fs (batchStart e) e) false db).ok = true
        · rw [if_pos hok]
          dsimp only
          rw [save_envelopes_notifs_no_notify]
          rw [ih _ hlt _]
          rfl
        · rw [if_neg hok]
          dsimp only
          exact save_envelopes_notifs_no_notify rf aid fid _ db

theorem sync_folder_some {fs : Nat → Nat → List Envelope} {fu : Nat → List Envelope}
    {rf : Envelope → Bool} {aid : Int} {name : String} {role : Option String}
    {fd : SelectData} {db : Db} {f : FolderRow}
    (hf : lookupFolder db aid name = some f) :
    sync_folder fs fu rf aid name role fd db =
      syncModes fs fu rf aid fd f.id f.uidValidity f.uidNext
        (if f.uidValidity ≠ 0 ∧ f.uidValidity ≠ currentUv fd
         then deleteFolderEmails (roleUpdate db f role) f.id
         else roleUpdate db f role) := by
  unfold sync_folder
  rw [hf]

theorem sync_folder_none {fs : Nat → Nat → List Envelope} {fu : Nat → List Envelope}
    {rf : Envelope → Bool} {aid : Int} {name : String} {role : Option String}
    {fd : SelectData} {db : Db}
    (hf : lookupFolder db aid name = none) :
    sync_folder fs fu rf aid name role fd db =
      syncModes fs fu rf aid fd db.nextFolderId 0 0
        { db with
          folders := db.folders ++ [{
            id := db.nextFolderId, accountId := aid, name := name, path := name,
            role := some (role.getD ""), uidValidity := currentUv fd,
            uidNext := currentUn fd, totalCount := currentTotal fd, unreadCount := 0 }]
          nextFolderId := db.nextFolderId + 1 } := by
  unfold sync_folder
  rw [hf]

theorem syncModes_initial_notifs (fs : Nat → Nat → List Envelope)
    (fu : Nat → List Envelope) (rf : Envelope → Bool) (aid : Int) (fd : SelectData)
    (fid storedUv : Int) (db2 : Db) :
    (syncModes fs fu rf aid fd fid storedUv 0 db2).notifs = [] := by
  unfold syncModes
  rw [if_pos (Or.inr rfl)]
  have hb : (!((0 : Int) == 0)) = false := by decide
  rw [hb]
  by_cases hok : (fullSyncLoop fs rf aid fid false (toU32 (currentTotal fd)) db2).ok = true
  · rw [if_pos hok]
    exact fullSyncLoop_notifs_no_notify fs rf aid fid _ db2
  · rw [if_neg hok]
    exact fullSyncLoop_notifs_no_notify fs rf aid fid _ db2

def c6Row : EmailRow :=
  { id := 1, accountId := 1, folderId := 1, remoteId := "r1", messageId := "m1",
    threadId := "m1", inReplyTo := none, referencesHeader := none, subject := "s",
    normalizedSubject := some "s", senderName := none, senderAddress := "al@x.com",
    recipientTo := none, date := "d", flags := "[]", hasAttachments := false }

def c6Db : Db := ⟨[c6Row], [⟨1, 1, "INBOX", "INBOX", some "inbox", 5, 9, 1, 0⟩], 2, 2⟩

def c6Env : Envelope :=
  { id := "r1", messageId := "m1", inReplyTo := none, referencesHeader := none,
    subject := "s", fromName := none, fromAddr := "al@x.com", toAddr := none,
    hasAttachment := false, date := "d", flags := [] }

/-- C6 counterexample: the batch's envelope hits a row that already exists
(`(folder_id, remote_id)` conflict — no row is freshly inserted, the table
length is unchanged), yet with `notify = true` the code still fires an OS
notification for it, because its guard `rows_affected() > 0` is also true
for the conflict-update path.  The claim's "exactly for freshly inserted,
unseen rows" is therefore false; moreover the notification fired is the
immediate plain one — `save_envelopes` (engine.rs:271-289) consults no
notification setting and does no AI-summary polling. -/
theorem c6_counterexample :
    c6Db.emails.any (emailKeyMatch 1 "r1") = true ∧
    (save_envelopes (fun _ => false) 1 1 [c6Env] true c6Db).db.emails.length
      = c6Db.emails.length ∧
    (save_envelopes (fun _ => false) 1 1 [c6Env] true c6Db).notifs
      = [{ title := "New Email: s", body := "From: al@x.com" }] := by
  refine ⟨by decide, by decide, by decide⟩

/-- C6 amended: `save_envelopes` fires exactly one immediate plain OS
notification (title `New Email: {subject}`, body `From: {sender}`) for
every successfully upserted envelope — freshly inserted or merely
updated — whose flag list lacks `"seen"`, whenever `notify` is true;
no settings are consulted and no AI-summary polling exists.  `notify` is
false exactly for the batches of an initial sync (`stored_uid_next = 0`,
including a freshly created folder row), so an initial sync of a
previously unknown or never-synced folder fires no notification. -/
theorem c6_notification_behaviour (fs : Nat → Nat → List Envelope)
    (fu : Nat → List Envelope) (rf : Envelope → Bool) (aid fid : Int)
    (envs : List Envelope) (notify : Bool) (db : Db) (name : String)
    (role : Option String) (fd : SelectData) (f : FolderRow) :
    ((save_envelopes rf aid fid envs notify db).notifs =
      (envs.filter (fun e => !rf e && notify && !(e.flags.contains "seen"))).map plainNotif) ∧
    (lookupFolder db aid name = some f → f.uidNext = 0 →
      (sync_folder fs fu rf aid name role fd db).notifs = []) ∧
    (lookupFolder db aid name = none →
      (sync_folder fs fu rf aid name role fd db).notifs = []) := by
  refine ⟨save_envelopes_notifs rf aid fid envs notify db, ?_, ?_⟩
  · intro hf h0
    rw [sync_folder_some hf, h0]
    exact syncModes_initial_notifs fs fu rf aid fd f.id f.uidValidity _
  · intro hf
    rw [sync_folder_none hf]
    exact syncModes_initial_notifs fs fu rf aid fd db.nextFolderId 0 _

def c6WFolder : FolderRow := ⟨1, 1, "INBOX", "INBOX", some "inbox", 0, 0, 0, 0⟩

def c6WDb : Db := ⟨[], [c6WFolder], 1, 2⟩

theorem c6_notification_behaviour_witness :
    (sync_folder (fun _ _ => []) (fun _ => []) (fun _ => false) 1 "INBOX"
      (some "inbox") ⟨some 5, some 11, some 3⟩ c6WDb).notifs = [] :=
  (c6_notification_behaviour (fun _ _ => []) (fun _ => []) (fun _ => false) 1 1 []
    true c6WDb "INBOX" (some "inbox") ⟨some 5, some 11, some 3⟩ c6WFolder).2.1
    (by decide) (by decide)

/-! ### C3: abort conditions and the final folder-state write -/

theorem setStoredRole_triples (db : Db) (fid : Int) (r : String) :
    ((setStoredRole db fid r).folders).map folderSyncTriple
      = db.folders.map folderSyncTriple := by
  unfold setStoredRole
  dsimp only
  rw [List.map_map]
  apply List.map_congr_left
  intro g _
  by_cases h : g.id = fid <;> simp [folderSyncTriple, h]

theorem roleUpdate_triples (db : Db) (f : FolderRow) (role : Option String) :
    ((roleUpdate db f role).folders).map folderSyncTriple
      = db.folders.map folderSyncTriple := by
  unfold roleUpdate
  cases role with
  | none => rfl
  | some r =>
    dsimp only
    by_cases h : (f.role == some r) = true
    · rw [if_pos h]
    · rw [if_neg h]
      exact setStoredRole_triples db f.id r

theorem roleUpdate_emails (db : Db) (f : FolderRow) (role : Option String) :
    (roleUpdate db f role).emails = db.emails := by
  unfold roleUpdate
  cases role with
  | none => rfl
  | some r =>
    dsimp only
    by_cases h : (f.role == some r) = true
    · rw [if_pos h]
    · rw [if_neg h]
      rfl

theorem deleteFolderEmails_folders (db : Db) (fid : Int) :
    (deleteFolderEmails db fid).folders = db.folders := rfl

theorem finalizeFolder_triples (db : Db) (fid uv un tc : Int) :
    ((finalizeFolder db fid uv un tc).folders).map folderSyncTriple
      = db.folders.map (fun g => if g.id = fid then (g.id, uv, un, tc)
          else folderSyncTriple g) := by
  unfold finalizeFolder
  dsimp only
  rw [List.map_map]
  apply List.map_congr_left
  intro g _
  by_cases h : g.id = fid <;> simp [folderSyncTriple, h]

theorem fullSyncLoop_triples (fs : Nat → Nat → List Envelope) (rf : Envelope → Bool)
    (aid fid : Int) (notify : Bool) :
    ∀ (e : Nat) (db : Db),
      ((fullSyncLoop fs rf aid fid notify e db).db.folders).map folderSyncTriple
        = db.folders.map folderSyncTriple := by
  intro e
  induction e using Nat.strong_induction_on with
  | _ e ih =>
    intro db
    unfold fullSyncLoop
    by_cases he : e = 0
    · rw [if_pos he]
    · rw [if_neg he]
      have hlt : nextEnd (batchStart e) < e := by
        unfold nextEnd batchStart
        split <;> split <;> omega
      by_cases hemp : fs (batchStart e) e = []
      · rw [if_pos hemp]
      · rw [if_neg hemp]
        by_cases hok : (save_envelopes rf aid fid (fs (batchStart e) e) notify db).ok = true
        · rw [if_pos hok]
          dsimp only
          rw [ih _ hlt _]
          exact save_envelopes_triples rf aid fid _ notify db
        · rw [if_neg hok]
          dsimp only
          exact save_envelopes_triples rf aid fid _ notify db

theorem triple_map_transfer {l₁ l₂ : List FolderRow} (fid uv un tc : Int)
    (h : l₁.map folderSyncTriple = l₂.map folderSyncTriple) :
    l₁.map (fun g => if g.id = fid then (g.id, uv, un, tc) else folderSyncTriple g)
      = l₂.map (fun g => if g.id = fid then (g.id, uv, un, tc) else folderSyncTriple g) := by
  have hfact : ∀ (l : List FolderRow),
      l.map (fun g => if g.id = fid then (g.id, uv, un, tc) else folderSyncTriple g)
        = (l.map folderSyncTriple).map
            (fun t => if t.1 = fid then (t.1, uv, un, tc) else t) := by
    intro l
    rw [List.map_map]
    apply List.map_congr_left
    intro g _
    by_cases hg : g.id = fid
    · simp [folderSyncTriple, hg]
    · simp [folderSyncTriple, hg]
  rw [hfact, hfact, h]

theorem syncModes_fail_triples (fs : Nat → Nat → List Envelope) (fu : Nat → List Envelope)
    (rf : Envelope → Bool) (aid : Int) (fd : SelectData) (fid storedUv storedUn : Int)
    (db2 : Db) (hfail : (syncModes fs fu rf aid fd fid storedUv storedUn db2).ok = false) :
    ((syncModes fs fu rf aid fd fid storedUv storedUn db2).db.folders).map folderSyncTriple
      = db2.folders.map folderSyncTriple := by
  unfold syncModes at *
  by_cases hc1 : storedUv ≠ currentUv fd ∨ storedUn = 0
  · rw [if_pos hc1] at hfail ⊢
    by_cases hok : (fullSyncLoop fs rf aid fid (!(storedUn == 0))
        (toU32 (currentTotal fd)) db2).ok = true
    · rw [if_pos hok] at hfail
      cases hfail
    · rw [if_neg hok]
      dsimp only
      exact fullSyncLoop_triples fs rf aid fid _ _ db2
  · rw [if_neg hc1] at hfail ⊢
    by_cases hc2 : toU32 storedUn < toU32 (currentUn fd)
    · rw [if_pos hc2] at hfail ⊢
      by_cases hemp : fu (incStart storedUn) = []
      · rw [if_pos hemp] at hfail
        cases hfail
      · rw [if_neg hemp] at hfail ⊢
        by_cases hok : (save_envelopes rf aid fid (fu (incStart storedUn)) true db2).ok = true
        · rw [if_pos hok] at hfail
          cases hfail
        · rw [if_neg hok]
          dsimp only
          exact save_envelopes_triples rf aid fid _ true db2
    · rw [if_neg hc2] at hfail
      cases hfail

theorem syncModes_ok_triples (fs : Nat → Nat → List Envelope) (fu : Nat → List Envelope)
    (rf : Envelope → Bool) (aid : Int) (fd : SelectData) (fid storedUv storedUn : Int)
    (db2 : Db) (hok : (syncModes fs fu rf aid fd fid storedUv storedUn db2).ok = true) :
    ((syncModes fs fu rf aid fd fid storedUv storedUn db2).db.folders).map folderSyncTriple
      = db2.folders.map (fun g => if g.id = fid
          then (g.id, currentUv fd, currentUn fd, currentTotal fd)
          else folderSyncTriple g) := by
  unfold syncModes at *
  by_cases hc1 : storedUv ≠ currentUv fd ∨ storedUn = 0
  · rw [if_pos hc1] at hok ⊢
    by_cases hlok : (fullSyncLoop fs rf aid fid (!(storedUn == 0))
        (toU32 (currentTotal fd)) db2).ok = true
    · rw [if_pos hlok]
      dsimp only
      rw [finalizeFolder_triples]
      exact triple_map_transfer _ _ _ _
        (fullSyncLoop_triples fs rf aid fid (!(storedUn == 0)) (toU32 (currentTotal fd)) db2)
    · rw [if_neg hlok] at hok
      cases hok
  · rw [if_neg hc1] at hok ⊢
    by_cases hc2 : toU32 storedUn < toU32 (currentUn fd)
    · rw [if_pos hc2] at hok ⊢
      by_cases hemp : fu (incStart storedUn) = []
      · rw [if_pos hemp]
        dsimp only
        rw [finalizeFolder_triples]
      · rw [if_neg hemp] at hok ⊢
        by_cases hsok : (save_envelopes rf aid fid (fu (incStart storedUn)) true db2).ok = true
        · rw [if_pos hsok]
          dsimp only
          rw [finalizeFolder_triples]
          exact triple_map_transfer _ _ _ _ (save_envelopes_triples rf aid fid _ true db2)
        · rw [if_neg hsok] at hok
          cases hok
    · rw [if_neg hc2]
      dsimp only
      rw [finalizeFolder_triples]

/-- C3: persisting a batch aborts the folder sync with an error iff every
row of the (non-empty) batch fails to upsert — one persisted row counts as
success.  On an aborted `sync_folder` call every folder row keeps its
previous `uid_validity` / `uid_next` / `total_count` (`uid_next` advances
only after the batches persisted), while on every non-aborted call —
including the no-op path — the synced folder's row is set to the server's
latest `uid_validity` / `uid_next` / `total_count` at the end of the call
and every other folder row keeps its values. -/
theorem c3_save_abort_and_folder_state (fs : Nat → Nat → List Envelope)
    (fu : Nat → List Envelope) (rf : Envelope → Bool) (aid : Int) (name : String)
    (role : Option String) (fd : SelectData) (db : Db) (f : FolderRow)
    (hf : lookupFolder db aid name = some f) :
    (∀ (envs : List Envelope) (notify : Bool) (d : Db),
        ((save_envelopes rf aid f.id envs notify d).ok = false ↔
          envs ≠ [] ∧ ∀ e ∈ envs, rf e = true)) ∧
    ((sync_folder fs fu rf aid name role fd db).ok = false →
      ((sync_folder fs fu rf aid name role fd db).db.folders).map folderSyncTriple
        = db.folders.map folderSyncTriple) ∧
    ((sync_folder fs fu rf aid name role fd db).ok = true →
      ((sync_folder fs fu rf aid name role fd db).db.folders).map folderSyncTriple
        = db.folders.map (fun g => if g.id = f.id
            then (g.id, currentUv fd, currentUn fd, currentTotal fd)
            else folderSyncTriple g)) := by
  have hdb2 : (((if f.uidValidity ≠ 0 ∧ f.uidValidity ≠ currentUv fd
      then deleteFolderEmails (roleUpdate db f role) f.id
      else roleUpdate db f role)).folders).map folderSyncTriple
        = db.folders.map folderSyncTriple := by
    split
    · rw [deleteFolderEmails_folders]
      exact roleUpdate_triples db f role
    · exact roleUpdate_triples db f role
  refine ⟨fun envs notify d => save_envelopes_ok_iff rf aid f.id envs notify d, ?_, ?_⟩
  · intro hfail
    rw [sync_folder_some hf] at hfail ⊢
    rw [syncModes_fail_triples _ _ _ _ _ _ _ _ _ hfail, hdb2]
  · intro hok
    rw [sync_folder_some hf] at hok ⊢
    rw [syncModes_ok_triples _ _ _ _ _ _ _ _ _ hok]
    exact triple_map_transfer _ _ _ _ hdb2

def c3WFolder : FolderRow := ⟨1, 1, "INBOX", "INBOX", some "inbox", 5, 11, 3, 0⟩

def c3WDb : Db := ⟨[], [c3WFolder], 1, 2⟩

theorem c3_save_abort_and_folder_state_witness :
    ((sync_folder (fun _ _ => []) (fun _ => []) (fun _ => false) 1 "INBOX" (some "inbox")
        ⟨some 5, some 11, some 3⟩ c3WDb).db.folders).map folderSyncTriple
      = c3WDb.folders.map (fun g => if g.id = c3WFolder.id
          then (g.id, currentUv ⟨some 5, some 11, some 3⟩,
            currentUn ⟨some 5, some 11, some 3⟩, currentTotal ⟨some 5, some 11, some 3⟩)
          else folderSyncTriple g) :=
  (c3_save_abort_and_folder_state (fun _ _ => []) (fun _ => []) (fun _ => false) 1 "INBOX"
    (some "inbox") ⟨some 5, some 11, some 3⟩ c3WDb c3WFolder (by decide)).2.2 (by decide)

/-! ### C2: which fetches each sync mode issues -/

/-- Modelled from the spec's words: a full sync fetches by sequence
number in descending batches of the fixed size 100, from `exists` down
to 1, and stops early after a batch that returns zero envelopes.  The
batch ending at `e` starts at `e - 100 + 1` (clipped to 1); the next
batch ends just below it. -/
def claimedSeqBatches (fetchSeq : Nat → Nat → List Envelope) (e : Nat) :
    List (Nat × Nat) :=
  if e = 0 then []
  else if fetchSeq (batchStart e) e = [] then [(batchStart e, e)]
  else (batchStart e, e) :: claimedSeqBatches fetchSeq (nextEnd (batchStart e))
termination_by e
decreasing_by all_goals (unfold nextEnd batchStart; split <;> split <;> omega)

theorem save_envelopes_ok_of_nofail (rf : Envelope → Bool) (hnf : ∀ x, rf x = false)
    (aid fid : Int) (envs : List Envelope) (notify : Bool) (d : Db) :
    (save_envelopes rf aid fid envs notify d).ok = true := by
  by_contra h
  rw [Bool.not_eq_true] at h
  rcases (save_envelopes_ok_iff rf aid fid envs notify d).mp h with ⟨hne, hall⟩
  rcases envs with _ | ⟨e, rest⟩
  · exact hne rfl
  · have hc := hall e (List.mem_cons_self e rest)
    rw [hnf e] at hc
    exact Bool.false_ne_true hc

theorem fullSyncLoop_trace_nofail (fs : Nat → Nat → List Envelope)
    (rf : Envelope → Bool) (hnf : ∀ x, rf x = false) (aid fid : Int) (notify : Bool) :
    ∀ (e : Nat) (db : Db),
      (fullSyncLoop fs rf aid fid notify e db).fetches = claimedSeqBatches fs e
      ∧ (fullSyncLoop fs rf aid fid notify e db).ok = true
      ∧ (fullSyncLoop fs rf aid fid notify e db).persisted
          = ((claimedSeqBatches fs e).map (fun p => fs p.1 p.2)).flatten := by
  intro e
  induction e using Nat.strong_induction_on with
  | _ e ih =>
    intro db
    unfold fullSyncLoop claimedSeqBatches
    by_cases he : e = 0
    · rw [if_pos he, if_pos he]
      simp
    · rw [if_neg he, if_neg he]
      by_cases hemp : fs (batchStart e) e = []
      · rw [if_pos hemp, if_pos hemp]
        simp [hemp]
      · rw [if_neg hemp, if_neg hemp]
        have hok := save_envelopes_ok_of_nofail rf hnf aid fid (fs (batchStart e) e) notify db
        rw [if_pos hok]
        have hlt : nextEnd (batchStart e) < e := by
          unfold nextEnd batchStart
          split <;> split <;> omega
        obtain ⟨ihf, iho, ihp⟩ := ih (nextEnd (batchStart e)) hlt
          ((save_envelopes rf aid fid (fs (batchStart e) e) notify db).db)
        refine ⟨?_, ?_, ?_⟩
        · dsimp only
          rw [ihf]
        · dsimp only
          rw [iho]
        · dsimp only
          rw [ihp]
          simp

theorem syncModes_full_fetches (fs : Nat → Nat → List Envelope) (fu : Nat → List Envelope)
    (rf : Envelope → Bool) (hnf : ∀ x, rf x = false) (aid : Int) (fd : SelectData)
    (fid storedUv storedUn : Int) (db2 : Db)
    (hc1 : storedUv ≠ currentUv fd ∨ storedUn = 0) :
    (syncModes fs fu rf aid fd fid storedUv storedUn db2).fetches
      = (claimedSeqBatches fs (toU32 (currentTotal fd))).map (fun p => FetchReq.seq p.1 p.2)
    ∧ (syncModes fs fu rf aid fd fid storedUv storedUn db2).ok = true
    ∧ (syncModes fs fu rf aid fd fid storedUv storedUn db2).persisted
        = ((claimedSeqBatches fs (toU32 (currentTotal fd))).map (fun p => fs p.1 p.2)).flatten := by
  obtain ⟨htr, hok, hpr⟩ := fullSyncLoop_trace_nofail fs rf hnf aid fid (!(storedUn == 0))
    (toU32 (currentTotal fd)) db2
  unfold syncModes
  rw [if_pos hc1, if_pos hok]
  exact ⟨by rw [htr], rfl, by rw [hpr]⟩

theorem syncModes_inc_fetches (fs : Nat → Nat → List Envelope) (fu : Nat → List Envelope)
    (rf : Envelope → Bool) (aid : Int) (fd : SelectData)
    (fid storedUv storedUn : Int) (db2 : Db)
    (hc1 : ¬(storedUv ≠ currentUv fd ∨ storedUn = 0))
    (hc2 : toU32 storedUn < toU32 (currentUn fd)) :
    (syncModes fs fu rf aid fd fid storedUv storedUn db2).fetches
      = [FetchReq.uid (incStart storedUn)]
    ∧ (syncModes fs fu rf aid fd fid storedUv storedUn db2).persisted
        = fu (incStart storedUn) := by
  unfold syncModes
  rw [if_neg hc1, if_pos hc2]
  by_cases hemp : fu (incStart storedUn) = []
  · rw [if_pos hemp]
    exact ⟨rfl, hemp.symm⟩
  · rw [if_neg hemp]
    by_cases hok : (save_envelopes rf aid fid (fu (incStart storedUn)) true db2).ok = true
    · rw [if_pos hok]
      exact ⟨rfl, rfl⟩
    · rw [if_neg hok]
      exact ⟨rfl, rfl⟩

theorem syncModes_noop_fetches (fs : Nat → Nat → List Envelope) (fu : Nat → List Envelope)
    (rf : Envelope → Bool) (aid : Int) (fd : SelectData)
    (fid storedUv storedUn : Int) (db2 : Db)
    (hc1 : ¬(storedUv ≠ currentUv fd ∨ storedUn = 0))
    (hc2 : ¬ toU32 storedUn < toU32 (currentUn fd)) :
    (syncModes fs fu rf aid fd fid storedUv storedUn db2).fetches = []
    ∧ (syncModes fs fu rf aid fd fid storedUv storedUn db2).persisted = []
    ∧ (syncModes fs fu rf aid fd fid storedUv storedUn db2).ok = true := by
  unfold syncModes
  rw [if_neg hc1, if_neg hc2]
  exact ⟨rfl, rfl, rfl⟩

theorem toU32_eq_toNat {i : Int} (h0 : 0 ≤ i) (h1 : i < (2 : Int) ^ 32) :
    toU32 i = i.toNat := by
  unfold toU32
  rw [Int.emod_eq_of_lt h0 h1]

/-- C2: with the stored and current UID counters in `u32` range (the code
compares their `as u32` casts) and no per-row save failures, `sync_folder`
runs the full sync — fetching by sequence number in descending batches of
100 from `exists` down to 1, persisting each batch before the next fetch
and stopping early, without an error, on an empty batch — exactly when
`stored_uid_validity != current_uid_validity` or `stored_uid_next == 0`;
issues exactly the single open-ended UID fetch `[stored_uid_next, ∞)`
exactly when otherwise `stored_uid_next < current_uid_next`; and fetches
nothing otherwise. -/
theorem c2_sync_mode_and_fetch_schedule (fs : Nat → Nat → List Envelope)
    (fu : Nat → List Envelope) (rf : Envelope → Bool) (aid : Int) (name : String)
    (role : Option String) (fd : SelectData) (db : Db) (f : FolderRow)
    (hf : lookupFolder db aid name = some f) (hnf : ∀ x, rf x = false)
    (hs0 : 0 ≤ f.uidNext) (hs1 : f.uidNext < (2 : Int) ^ 32)
    (hcn : fd.uidNext.getD 0 < 2 ^ 32) (hct : fd.exists_.getD 0 < 2 ^ 32) :
    ((f.uidValidity ≠ currentUv fd ∨ f.uidNext = 0) →
      (sync_folder fs fu rf aid name role fd db).fetches
        = (claimedSeqBatches fs (fd.exists_.getD 0)).map (fun p => FetchReq.seq p.1 p.2)
      ∧ (sync_folder fs fu rf aid name role fd db).ok = true
      ∧ (sync_folder fs fu rf aid name role fd db).persisted
          = ((claimedSeqBatches fs (fd.exists_.getD 0)).map (fun p => fs p.1 p.2)).flatten)
    ∧ (f.uidValidity = currentUv fd ∧ f.uidNext ≠ 0 → f.uidNext < currentUn fd →
        (sync_folder fs fu rf aid name role fd db).fetches = [FetchReq.uid f.uidNext.toNat]
        ∧ (sync_folder fs fu rf aid name role fd db).persisted = fu f.uidNext.toNat)
    ∧ (f.uidValidity = currentUv fd ∧ f.uidNext ≠ 0 → ¬ f.uidNext < currentUn fd →
        (sync_folder fs fu rf aid name role fd db).fetches = []
        ∧ (sync_folder fs fu rf aid name role fd db).persisted = []
        ∧ (sync_folder fs fu rf aid name role fd db).ok = true) := by
  have htot : toU32 (currentTotal fd) = fd.exists_.getD 0 := by
    unfold currentTotal
    rw [toU32_eq_toNat (Int.natCast_nonneg _) (by exact_mod_cast hct)]
    exact Int.toNat_natCast _
  have hcur : toU32 (currentUn fd) = fd.uidNext.getD 0 := by
    unfold currentUn
    rw [toU32_eq_toNat (Int.natCast_nonneg _) (by exact_mod_cast hcn)]
    exact Int.toNat_natCast _
  have hsto : toU32 f.uidNext = f.uidNext.toNat := toU32_eq_toNat hs0 hs1
  rw [sync_folder_some hf]
  refine ⟨?_, ?_, ?_⟩
  · intro hc1
    obtain ⟨h1, h2, h3⟩ :=
      syncModes_full_fetches fs fu rf hnf aid fd f.id f.uidValidity f.uidNext _ hc1
    rw [htot] at h1 h3
    exact ⟨h1, h2, h3⟩
  · rintro ⟨heq, hne⟩ hlt
    have hc1 : ¬(f.uidValidity ≠ currentUv fd ∨ f.uidNext = 0) := by
      push_neg
      exact ⟨heq, hne⟩
    have hc2 : toU32 f.uidNext < toU32 (currentUn fd) := by
      rw [hsto, hcur]
      unfold currentUn at hlt
      omega
    have hstart : incStart f.uidNext = f.uidNext.toNat := by
      unfold incStart
      rw [hsto, if_neg]
      omega
    obtain ⟨h1, h2⟩ :=
      syncModes_inc_fetches fs fu rf aid fd f.id f.uidValidity f.uidNext _ hc1 hc2
    rw [hstart] at h1 h2
    exact ⟨h1, h2⟩
  · rintro ⟨heq, hne⟩ hge
    have hc1 : ¬(f.uidValidity ≠ currentUv fd ∨ f.uidNext = 0) := by
      push_neg
      exact ⟨heq, hne⟩
    have hc2 : ¬ toU32 f.uidNext < toU32 (currentUn fd) := by
      rw [hsto, hcur]
      unfold currentUn at hge
      omega
    exact syncModes_noop_fetches fs fu rf aid fd f.id f.uidValidity f.uidNext _ hc1 hc2

def c2WFolder : FolderRow := ⟨1, 1, "INBOX", "INBOX", some "inbox", 5, 0, 0, 0⟩

def c2WDb : Db := ⟨[], [c2WFolder], 1, 2⟩

theorem c2_sync_mode_and_fetch_schedule_witness :
    (sync_folder (fun _ _ => []) (fun _ => []) (fun _ => false) 1 "INBOX" (some "inbox")
        ⟨some 5, some 11, some 3⟩ c2WDb).fetches
      = (claimedSeqBatches (fun _ _ => []) 3).map (fun p => FetchReq.seq p.1 p.2)
    ∧ (sync_folder (fun _ _ => []) (fun _ => []) (fun _ => false) 1 "INBOX" (some "inbox")
        ⟨some 5, some 11, some 3⟩ c2WDb).ok = true
    ∧ (sync_folder (fun _ _ => []) (fun _ => []) (fun _ => false) 1 "INBOX" (some "inbox")
        ⟨some 5, some 11, some 3⟩ c2WDb).persisted
        = ((claimedSeqBatches (fun _ _ => []) 3).map
            (fun _ => ([] : List Envelope))).flatten :=
  (c2_sync_mode_and_fetch_schedule (fun _ _ => []) (fun _ => []) (fun _ => false) 1 "INBOX"
    (some "inbox") ⟨some 5, some 11, some 3⟩ c2WDb c2WFolder (by decide) (fun _ => rfl)
    (by decide) (by decide) (by decide) (by decide)).1 (Or.inr rfl)

/-! ### C1: email-row provenance after a UIDVALIDITY change -/

theorem upsertEmail_emails_origin (aid fid : Int) (env : Envelope) (d : Db) :
    ∀ r ∈ (upsertEmail aid fid env d).emails, r ∈ d.emails ∨ r.remoteId = env.id := by
  intro r hr
  unfold upsertEmail at hr
  by_cases hany : d.emails.any (emailKeyMatch fid env.id) = true
  · rw [if_pos hany] at hr
    dsimp only at hr
    obtain ⟨r0, hr0, heq⟩ := List.mem_map.mp hr
    by_cases hk : emailKeyMatch fid env.id r0 = true
    · rw [if_pos hk] at heq
      right
      simp only [emailKeyMatch, Bool.and_eq_true, beq_iff_eq] at hk
      rw [← heq]
      exact hk.2
    · rw [if_neg hk] at heq
      left
      rw [← heq]
      exact hr0
  · rw [if_neg hany] at hr
    dsimp only at hr
    rcases List.mem_append.mp hr with h | h
    · exact Or.inl h
    · right
      rw [List.mem_singleton.mp h]
  
theorem saveLoop_emails_origin (rf : Envelope → Bool) (aid fid : Int) (notify : Bool) :
    ∀ (envs : List Envelope) (acc : SaveAcc),
      ∀ r ∈ (saveLoop rf aid fid notify envs acc).db.emails,
        r ∈ acc.db.emails ∨ ∃ env ∈ envs, env.id = r.remoteId := by
  intro envs
  induction envs with
  | nil =>
    intro acc r hr
    exact Or.inl hr
  | cons env rest ih =>
    intro acc
    unfold saveLoop
    by_cases h : rf env
    · rw [if_pos h]
      intro r hr
      rcases ih _ r hr with h2 | ⟨e, he, heq⟩
      · exact Or.inl h2
      · exact Or.inr ⟨e, List.mem_cons_of_mem _ he, heq⟩
    · rw [if_neg h]
      intro r hr
      rcases ih _ r hr with h2 | ⟨e, he, heq⟩
      · dsimp only at h2
        rcases upsertEmail_emails_origin aid fid env acc.db r h2 with h3 | h3
        · exact Or.inl h3
        · exact Or.inr ⟨env, List.mem_cons_self _ _, h3.symm⟩
      · exact Or.inr ⟨e, List.mem_cons_of_mem _ he, heq⟩

theorem save_envelopes_emails_origin (rf : Envelope → Bool) (aid fid : Int)
    (envs : List Envelope) (notify : Bool) (d : Db) :
    ∀ r ∈ (save_envelopes rf aid fid envs notify d).db.emails,
      r ∈ d.emails ∨ ∃ env ∈ envs, env.id = r.remoteId := by
  intro r hr
  rw [save_envelopes_emails] at hr
  exact saveLoop_emails_origin rf aid fid notify envs ⟨d, 0, 0, []⟩ r hr

theorem fullSyncLoop_emails_origin (fs : Nat → Nat → List Envelope)
    (rf : Envelope → Bool) (aid fid : Int) (notify : Bool) :
    ∀ (e : Nat) (d : Db),
      ∀ r ∈ (fullSyncLoop fs rf aid fid notify e d).db.emails,
        r ∈ d.emails
        ∨ ∃ env ∈ (fullSyncLoop fs rf aid fid notify e d).persisted,
            env.id = r.remoteId := by
  intro e
  induction e using Nat.strong_induction_on with
  | _ e ih =>
    intro d
    unfold fullSyncLoop
    by_cases he : e = 0
    · rw [if_pos he]
      intro r hr
      exact Or.inl hr
    · rw [if_neg he]
      by_cases hemp : fs (batchStart e) e = []
      · rw [if_pos hemp]
        intro r hr
        exact Or.inl hr
      · rw [if_neg hemp]
        have hlt : nextEnd (batchStart e) < e := by
          unfold nextEnd batchStart
          split <;> split <;> omega
        by_cases hok : (save_envelopes rf aid fid (fs (batchStart e) e) notify d).ok = true
        · rw [if_pos hok]
          intro r hr
          dsimp only at hr ⊢
          rcases ih (nextEnd (batchStart e)) hlt
              ((save_envelopes rf aid fid (fs (batchStart e) e) notify d).db) r hr with
            h2 | ⟨env, henv, heq⟩
          · rcases save_envelopes_emails_origin rf aid fid (fs (batchStart e) e) notify d
                r h2 with h3 | ⟨env, henv, heq⟩
            · exact Or.inl h3
            · exact Or.inr ⟨env, List.mem_append.mpr (Or.inl henv), heq⟩
          · exact Or.inr ⟨env, List.mem_append.mpr (Or.inr henv), heq⟩
        · rw [if_neg hok]
          intro r hr
          dsimp only at hr ⊢
          rcases save_envelopes_emails_origin rf aid fid (fs (batchStart e) e) notify d
              r hr with h3 | ⟨env, henv, heq⟩
          · exact Or.inl h3
          · exact Or.inr ⟨env, henv, heq⟩

theorem finalizeFolder_emails (d : Db) (fid uv un tc : Int) :
    (finalizeFolder d fid uv un tc).emails = d.emails := rfl

theorem syncModes_full_emails_origin (fs : Nat → Nat → List Envelope)
    (fu : Nat → List Envelope) (rf : Envelope → Bool) (aid : Int) (fd : SelectData)
    (fid storedUv storedUn : Int) (db2 : Db)
    (hc1 : storedUv ≠ currentUv fd ∨ storedUn = 0) :
    ∀ r ∈ (syncModes fs fu rf aid fd fid storedUv storedUn db2).db.emails,
      r ∈ db2.emails
      ∨ ∃ env ∈ (syncModes fs fu rf aid fd fid storedUv storedUn db2).persisted,
          env.id = r.remoteId := by
  unfold syncModes
  rw [if_pos hc1]
  by_cases hok : (fullSyncLoop fs rf aid fid (!(storedUn == 0))
      (toU32 (currentTotal fd)) db2).ok = true
  · rw [if_pos hok]
    intro r hr
    dsimp only at hr ⊢
    rw [finalizeFolder_emails] at hr
    exact fullSyncLoop_emails_origin fs rf aid fid (!(storedUn == 0))
      (toU32 (currentTotal fd)) db2 r hr
  · rw [if_neg hok]
    intro r hr
    dsimp only at hr ⊢
    exact fullSyncLoop_emails_origin fs rf aid fid (!(storedUn == 0))
      (toU32 (currentTotal fd)) db2 r hr

theorem deleteFolderEmails_emails_mem {d : Db} {fid : Int} {r : EmailRow}
    (hr : r ∈ (deleteFolderEmails d fid).emails) : r ∈ d.emails ∧ r.folderId ≠ fid := by
  unfold deleteFolderEmails at hr
  dsimp only at hr
  obtain ⟨hmem, hcond⟩ := List.mem_filter.mp hr
  refine ⟨hmem, ?_⟩
  simpa using hcond

/-- C1: when the server's `uid_validity` differs from the stored non-zero
`uid_validity`, `sync_folder` deletes the folder's cached email rows
before any fetch or persist, so after the sync every email row of that
folder references a `remote_id` that was persisted during this sync,
i.e. under the new `uid_validity` epoch. -/
theorem c1_uid_validity_change_clears_folder (fs : Nat → Nat → List Envelope)
    (fu : Nat → List Envelope) (rf : Envelope → Bool) (aid : Int) (name : String)
    (role : Option String) (fd : SelectData) (db : Db) (f : FolderRow)
    (hf : lookupFolder db aid name = some f) (h0 : f.uidValidity ≠ 0)
    (hnev : f.uidValidity ≠ currentUv fd) (r : EmailRow)
    (hr : r ∈ (sync_folder fs fu rf aid name role fd db).db.emails)
    (hfid : r.folderId = f.id) :
    ∃ env ∈ (sync_folder fs fu rf aid name role fd db).persisted,
      env.id = r.remoteId := by
  rw [sync_folder_some hf] at hr ⊢
  rw [if_pos (show f.uidValidity ≠ 0 ∧ f.uidValidity ≠ currentUv fd from ⟨h0, hnev⟩)] at hr ⊢
  rcases syncModes_full_emails_origin fs fu rf aid fd f.id f.uidValidity f.uidNext
      (deleteFolderEmails (roleUpdate db f role) f.id) (Or.inl hnev) r hr with h2 | h2
  · exact absurd hfid (deleteFolderEmails_emails_mem h2).2
  · exact h2

def c1Env : Envelope :=
  ⟨"r9", "m9", none, none, "hello", none, "a@b", none, false, "2024-01-01", []⟩

def c1Stale : EmailRow :=
  ⟨10, 1, 1, "old", "mold", "mold", none, none, "x", some "x", none, "a@b", none,
    "2023-01-01", "[]", false⟩

def c1WFolder : FolderRow := ⟨1, 1, "INBOX", "INBOX", some "inbox", 5, 7, 3, 0⟩

def c1WDb : Db := ⟨[c1Stale], [c1WFolder], 11, 2⟩

def c1WRow : EmailRow :=
  ⟨11, 1, 1, "r9", "m9", "m9", none, none, "hello", some "hello", none, "a@b", none,
    "2024-01-01", "[]", false⟩

theorem c1_norm : normalize_subject "hello" = "hello" := by
  unfold normalize_subject
  rw [stripLoop_none (by decide)]
  decide

theorem c1_uid_validity_change_clears_folder_witness :
    ∃ env ∈ (sync_folder (fun _ _ => [c1Env]) (fun _ => []) (fun _ => false) 1 "INBOX"
        (some "inbox") ⟨some 6, some 11, some 2⟩ c1WDb).persisted,
      env.id = c1WRow.remoteId :=
  c1_uid_validity_change_clears_folder (fun _ _ => [c1Env]) (fun _ => []) (fun _ => false) 1
    "INBOX" (some "inbox") ⟨some 6, some 11, some 2⟩ c1WDb c1WFolder (by decide) (by decide)
    (by decide) c1WRow (by
      simp [sync_folder, lookupFolder, syncModes, fullSyncLoop, roleUpdate, deleteFolderEmails,
        setStoredRole, finalizeFolder, save_envelopes, saveLoop, upsertEmail, emailKeyMatch,
        batchStart, nextEnd, toU32, currentUv, currentUn, currentTotal, c1WDb, c1Stale,
        c1WFolder, c1Env, c1WRow, serializeFlags, c1_norm, incStart, countUnseen,
        sqlUnseen, likeContains, List.find?]
      decide) (by decide)
